import Mathlib

/-!
# DebugAndLog: log-level resolution and gating

A shallow embedding of `src/lib/tools/DebugAndLog.class.js`.

* `process.env` is a finite map from names to strings, read here as a
  function `String → Option String` (`none`: the name is not a property).
* The two private static fields `#logLevel` and `#expiration` are the fields
  `logLevel` and `expiration` of `St`; what the class writes to the console is
  the field `out`.
* `new Date()` is the argument `now` of every operation; a `Date` is held by
  its UTC calendar fields, and `toISOString` prints them.
* The recursion `setLogLevel → warn → writeLog → getLogLevel → setLogLevel`
  is kept as it is in the source, on a fuel argument; `setLogLevel_eq` shows
  that fuel 6 is enough for every call, and gives the result in closed form.
* Levels are integers, `NaN` or an infinity, text is ASCII, and the payload
  `obj` of a log call, which only the formatting reads, is left out.
-/

namespace DebugAndLog

/-! ## Numbers -/

/-- A JavaScript number as far as the controller compares it: `NaN`, an
integer, or an infinity (`inf true` is `-Infinity`). Numbers with a fraction
are outside the embedding. -/
inductive Level where
  | nan : Level
  | int (n : Int) : Level
  | inf (negative : Bool) : Level
  deriving DecidableEq, Repr

namespace Level

/-- The comparison `x === k` against an integer literal; `NaN === k` is false. -/
def strictEq : Level → Int → Bool
  | nan, _ => false
  | int n, k => decide (n = k)
  | inf _, _ => false

/-- The comparison `x > k` against an integer literal; `NaN > k` is false. -/
def gt : Level → Int → Bool
  | nan, _ => false
  | int n, k => decide (k < n)
  | inf negative, _ => !negative

/-- The comparison `x >= k` against an integer literal; `NaN >= k` is false. -/
def ge : Level → Int → Bool
  | nan, _ => false
  | int n, k => decide (k ≤ n)
  | inf negative, _ => !negative

/-- The text a number takes in a string concatenation `"..." + x`, for an
integer of magnitude below `10 ^ 21`; from there on JavaScript prints an
exponent form (`1e+21`), which is not stated here. -/
def toJSString : Level → String
  | nan => "NaN"
  | int n => toString n
  | inf false => "Infinity"
  | inf true => "-Infinity"

end Level

/-! ## Strings -/

/-- The upper case of one character: the letters `a` to `z` give `A` to `Z`;
the long s, the dotless i, the sharp s and the Latin ligatures, whose upper
case is made of ASCII letters, give those letters; every other character is
kept. -/
def upperChar (c : Char) : List Char :=
  if c.toNat = 0x17F then ['S']
  else if c.toNat = 0x131 then ['I']
  else if c.toNat = 0xDF then ['S', 'S']
  else if c.toNat = 0xFB00 then ['F', 'F']
  else if c.toNat = 0xFB01 then ['F', 'I']
  else if c.toNat = 0xFB02 then ['F', 'L']
  else if c.toNat = 0xFB03 then ['F', 'F', 'I']
  else if c.toNat = 0xFB04 then ['F', 'F', 'L']
  else if c.toNat = 0xFB05 ∨ c.toNat = 0xFB06 then ['S', 'T']
  else [c.toUpper]

/-- The upper case of a list of characters. -/
def upperChars : List Char → List Char
  | [] => []
  | c :: cs => upperChar c ++ upperChars cs

/-- The method `String.prototype.toUpperCase`. It is exact on ASCII text and
on the characters that `upperChar` lists; a letter outside ASCII that is not
listed is kept, where JavaScript gives its upper-case form, which is outside
ASCII too. -/
def toUpperCase (s : String) : String := String.mk (upperChars s.data)

/-- The relational comparison `a < b` of two strings, by code units: the first
position where they differ decides, and a proper prefix is smaller. -/
def strLt : List Char → List Char → Bool
  | [], [] => false
  | [], _ :: _ => true
  | _ :: _, [] => false
  | a :: as, b :: bs =>
    if a.toNat < b.toNat then true
    else if b.toNat < a.toNat then false
    else strLt as bs

/-- The comparison `a > b` of two strings. -/
def strGt (a b : String) : Bool := strLt b.data a.data

/-! ## The process environment -/

/-- The object `process.env`: the value of each name that is set. -/
abbrev ProcessEnv := String → Option String

/-- The test `k in process.env && process.env[k] !== "" && process.env[k] !== null`,
giving the value when it passes. A value of `process.env` is always a string,
so the comparison with `null` never fails. -/
def ProcessEnv.filled (penv : ProcessEnv) (k : String) : Option String :=
  match penv k with
  | some v => if v = "" then none else some v
  | none => none

def PROD : String := "PROD"
def TEST : String := "TEST"
def DEV : String := "DEV"

def ENVIRONMENTS : List String := [PROD, TEST, DEV]

def ERROR : String := "ERROR"
def WARN : String := "WARN"
def LOG : String := "LOG"
def MSG : String := "MSG"
def DIAG : String := "DIAG"
def DEBUG : String := "DEBUG"

/-- The array `possibleVars` of `getEnv`. Its last element is one string. -/
def envVars : List String :=
  ["env", "deployEnvironment", "environment", "stage, deploy_environment"]

/-- The `for` loop of `getEnv`: the first name of `vars` that is filled, as
given or upper-cased, decides; `env` is kept when there is none. -/
def getEnvLoop (penv : ProcessEnv) : List String → String → String
  | [], env => env
  | e :: rest, env =>
    match penv.filled e with
    | some v => toUpperCase v
    | none =>
      match penv.filled (toUpperCase e) with
      | some v => toUpperCase v
      | none => getEnvLoop penv rest env

/-- The method `getEnv`. The test `"env" in process` holds in Node. -/
def getEnv (penv : ProcessEnv) : String :=
  let env := if penv "NODE_ENV" = some "development" then DEV else PROD
  let env := getEnvLoop penv envVars env
  if ENVIRONMENTS.contains env then env else PROD

/-- The method `isProduction`. -/
def isProduction (penv : ProcessEnv) : Bool := getEnv penv == PROD

/-- The method `isNotProduction`. -/
def isNotProduction (penv : ProcessEnv) : Bool := !isProduction penv

/-- The method `isDevelopment`. -/
def isDevelopment (penv : ProcessEnv) : Bool := getEnv penv == DEV

/-- The method `isTest`. -/
def isTest (penv : ProcessEnv) : Bool := getEnv penv == TEST

/-! ## The default level -/

/-- White space that `Number` strips from both ends of its argument: the
white space and line terminator characters of the language, by code point
(tab, line feed, vertical tab, form feed, carriage return, space, no-break
space, the space separators, line and paragraph separator, byte order mark). -/
def isSpace (c : Char) : Bool :=
  decide (c.toNat = 9) || decide (c.toNat = 10) || decide (c.toNat = 11) ||
  decide (c.toNat = 12) || decide (c.toNat = 13) || decide (c.toNat = 32) ||
  decide (c.toNat = 160) || decide (c.toNat = 5760) ||
  (decide (8192 ≤ c.toNat) && decide (c.toNat ≤ 8202)) ||
  decide (c.toNat = 8232) || decide (c.toNat = 8233) || decide (c.toNat = 8239) ||
  decide (c.toNat = 8287) || decide (c.toNat = 12288) || decide (c.toNat = 65279)

/-- The value of a run of decimal digits, after the digits read so far. -/
def digitsValue : List Char → Nat → Option Nat
  | [], acc => some acc
  | c :: cs, acc =>
    if 48 ≤ c.toNat ∧ c.toNat ≤ 57 then digitsValue cs (acc * 10 + (c.toNat - 48))
    else none

/-- An unsigned run of decimal digits, at least one. -/
def unsignedValue (cs : List Char) : Option Nat :=
  match cs with
  | [] => none
  | _ :: _ => digitsValue cs 0

/-- The number of halvings that bring `n` below `2 ^ 53`, searched with the
fuel given. -/
def shiftFor : Nat → Nat → Nat
  | 0, _ => 0
  | fuel + 1, n => if n < 2 ^ 53 then 0 else shiftFor fuel (n / 2) + 1

/-- The double nearest to the natural number `n`, ties to the even
significand, and `none` when it is `Infinity`: a double holds 53 significant
bits and is below `2 ^ 1024`. -/
def roundToDouble (n : Nat) : Option Nat :=
  let shift := shiftFor n n
  let q := n / 2 ^ shift
  let r := n % 2 ^ shift
  let q1 := if 2 ^ shift < 2 * r ∨ (2 * r = 2 ^ shift ∧ q % 2 = 1) then q + 1 else q
  if shift < 971 ∨ (shift = 971 ∧ q1 < 2 ^ 53) then some (q1 * 2 ^ shift) else none

/-- The number that an unsigned literal denotes: `Infinity`, or a run of
decimal digits, rounded to a double. -/
def unsignedNumber (negative : Bool) (cs : List Char) : Level :=
  if cs = "Infinity".data then Level.inf negative
  else
    match unsignedValue cs with
    | some n =>
      match roundToDouble n with
      | some v => Level.int (if negative then -(v : Int) else (v : Int))
      | none => Level.inf negative
    | none => Level.nan

/-- The conversion `Number(s)` of a string, on decimal integer text: white
space is stripped, the empty text is `0`, an optional sign and `Infinity` or
decimal digits give the number, rounded to a double, and text that is no
numeric literal gives `NaN`. Numeric literals with a fraction, an exponent or
a radix prefix (`5.0`, `1e1`, `0x10`) have a value in JavaScript, and `NaN`
here: they are outside the embedding. The theorems that range over every
environment speak of the default level without computing it, and those that
compute it do so at decimal integer text. -/
def Number (s : String) : Level :=
  let cs := ((s.data.dropWhile isSpace).reverse.dropWhile isSpace).reverse
  match cs with
  | [] => Level.int 0
  | '-' :: ds => unsignedNumber true ds
  | '+' :: ds => unsignedNumber false ds
  | ds => unsignedNumber false ds

/-- The array `possibleVars` of `getDefaultLogLevel`. -/
def levelVars : List String := ["detailedLogs", "logLevel"]

/-- The `for` loop of `getDefaultLogLevel`. The test `Number.isNaN(v)` is made
on the string `v` itself, which is never the number `NaN`, so a name counts as
soon as it is filled, and its value goes through `Number`. -/
def getDefaultLogLevelLoop (penv : ProcessEnv) : List String → Level → Level
  | [], logLevel => logLevel
  | lev :: rest, logLevel =>
    match penv.filled lev with
    | some v => Number v
    | none =>
      match penv.filled (toUpperCase lev) with
      | some v => Number v
      | none => getDefaultLogLevelLoop penv rest logLevel

/-- The method `getDefaultLogLevel`. -/
def getDefaultLogLevel (penv : ProcessEnv) : Level :=
  if isNotProduction penv then getDefaultLogLevelLoop penv levelVars (Level.int 0)
  else Level.int 0

/-! ## Dates -/

/-- A valid `Date`, by its UTC calendar fields. -/
structure Instant where
  year : Int
  month : Nat
  day : Nat
  hour : Nat
  minute : Nat
  second : Nat
  ms : Nat
  deriving DecidableEq, Repr

/-- The ranges of the calendar fields of a `Date`. -/
def Instant.wellFormed (t : Instant) : Prop :=
  -271821 ≤ t.year ∧ t.year ≤ 275760 ∧ 1 ≤ t.month ∧ t.month ≤ 12 ∧
  1 ≤ t.day ∧ t.day ≤ 31 ∧ t.hour ≤ 23 ∧ t.minute ≤ 59 ∧ t.second ≤ 59 ∧
  t.ms ≤ 999

instance (t : Instant) : Decidable t.wellFormed := by
  unfold Instant.wellFormed; infer_instance

/-- Chronological order: `a` is an earlier instant than `b`. -/
def Instant.before (a b : Instant) : Prop :=
  a.year < b.year ∨ (a.year = b.year ∧ (a.month < b.month ∨ (a.month = b.month ∧
  (a.day < b.day ∨ (a.day = b.day ∧ (a.hour < b.hour ∨ (a.hour = b.hour ∧
  (a.minute < b.minute ∨ (a.minute = b.minute ∧ (a.second < b.second ∨
  (a.second = b.second ∧ a.ms < b.ms)))))))))))

instance (a b : Instant) : Decidable (a.before b) := by
  unfold Instant.before; infer_instance

/-- The decimal digit of the units of `d`. -/
def digit (d : Nat) : Char :=
  match d % 10 with
  | 0 => '0' | 1 => '1' | 2 => '2' | 3 => '3' | 4 => '4'
  | 5 => '5' | 6 => '6' | 7 => '7' | 8 => '8' | _ => '9'

def pad2 (n : Nat) : List Char := [digit (n / 10), digit n]

def pad3 (n : Nat) : List Char := [digit (n / 100), digit (n / 10), digit n]

def pad4 (n : Nat) : List Char :=
  [digit (n / 1000), digit (n / 100), digit (n / 10), digit n]

def pad6 (n : Nat) : List Char :=
  [digit (n / 100000), digit (n / 10000), digit (n / 1000), digit (n / 100),
   digit (n / 10), digit n]

/-- The year of `toISOString`: four digits from 0 to 9999, and otherwise a
sign and six digits. -/
def isoYear (y : Int) : List Char :=
  if 0 ≤ y ∧ y ≤ 9999 then pad4 y.toNat
  else (if y < 0 then '-' else '+') :: pad6 y.natAbs

/-- The method `Date.prototype.toISOString` of a valid date. -/
def toISOString (t : Instant) : String :=
  String.mk (isoYear t.year ++ ('-' :: (pad2 t.month ++ ('-' :: (pad2 t.day ++
    ('T' :: (pad2 t.hour ++ (':' :: (pad2 t.minute ++ (':' :: (pad2 t.second ++
    ('.' :: (pad3 t.ms ++ ['Z'])))))))))))))

/-- The argument `expiration` of `setLogLevel`, by what `new Date(expiration)`
makes of it: `absent` is the default `-1`, `date t` a value that gives the
valid date `t`, `invalid` a value that gives an invalid date. -/
inductive Expiration where
  | absent : Expiration
  | date (t : Instant) : Expiration
  | invalid : Expiration
  deriving DecidableEq, Repr

/-! ## The controller -/

/-- The console methods that `writeLog` writes through. -/
inductive Channel where
  | error | warn | log | info | debug
  deriving DecidableEq, Repr

/-- One call of a console method by `baseLog`: the method, the tag and the
message. -/
structure Record where
  channel : Channel
  tag : String
  message : String
  deriving DecidableEq, Repr

/-- The state of the class. `logLevel` is `#logLevel`; `expiration` is
`#expiration`, `none` standing for `-1`; `out` is what was written to the
console, oldest first. The last three fields are not in the source, they
count what the source does: `setCalls` the calls of `setLogLevel` started so
far, `depth` those that have not returned yet, `maxDepth` the largest `depth`
reached. -/
structure St where
  logLevel : Level
  expiration : Option String
  out : List Record
  setCalls : Nat
  depth : Nat
  maxDepth : Nat
  deriving DecidableEq, Repr

/-- The state when the class is loaded. -/
def St.init : St :=
  { logLevel := Level.int (-1), expiration := none, out := [],
    setCalls := 0, depth := 0, maxDepth := 0 }

/-- A call of `setLogLevel` starts. -/
def St.enter (s : St) : St :=
  { s with setCalls := s.setCalls + 1, depth := s.depth + 1,
           maxDepth := max s.maxDepth (s.depth + 1) }

/-- A call of `setLogLevel` ends. -/
def St.leave (s : St) : St := { s with depth := s.depth - 1 }

/-- How a call ends: it returns `v`, it throws the `RangeError` of
`toISOString`, or the fuel of the embedding is used up. -/
inductive Result (α : Type) where
  | ok (v : α) (s : St) : Result α
  | thrown (s : St) : Result α
  | outOfFuel : Result α
  deriving DecidableEq, Repr

/-- The function `baseLog` of `writeLog`: one line on the console. -/
def baseLog (channel : Channel) (tag message : String) (s : St) : St :=
  { s with out := s.out ++ [{ channel := channel, tag := tag, message := message }] }

/-- The `switch` of `writeLog`, on the upper-cased tag and the level. -/
def gate (lvl : Level) (tag message : String) (s : St) : St :=
  if tag = ERROR then baseLog Channel.error tag message s
  else if tag = WARN then baseLog Channel.warn tag message s
  else if tag = MSG then
    (if lvl.ge 1 then baseLog Channel.info tag message s else s)
  else if tag = DIAG then
    (if lvl.ge 3 then baseLog Channel.debug tag message s else s)
  else if tag = DEBUG then
    (if lvl.ge 5 then baseLog Channel.debug tag message s else s)
  else baseLog Channel.log tag message s

def msgAlreadySet (logLevel : Level) : String :=
  "LogLevel already set, cannot reset. Ignoring call to DebugAndLog.setLogLevel(" ++
    logLevel.toJSString ++ ")"

def msgProduction (logLevel : Level) : String :=
  "DebugAndLog: Production environment. Cannot set logLevel higher than 0. Ignoring call to DebugAndLog.setLogLevel(" ++
    logLevel.toJSString ++ "). Default LogLevel override code should be removed before production"

def msgOverride (logLevel : Level) : String :=
  "DebugAndLog: Override of log level default set: " ++ logLevel.toJSString ++
    ". Default LogLevel override code should be removed before production"

def msgNoExpiration : String :=
  "DebugAndLog: Override of log level default set WITHOUT EXPIRATION. An expiration is recommended."

def msgExpired : String :=
  "DebugAndLog: Override of log level default expired. Call to DebugAndLog.setLogLevel() should be commented out or removed"

/-- The assignment to `#expiration` at the head of `setLogLevel`, for an
expiration that is absent or a valid date. -/
def storeExpiration (expiration : Expiration) (s : St) : St :=
  match expiration with
  | Expiration.date t => { s with expiration := some (toISOString t) }
  | _ => { s with expiration := none }

mutual

/-- The method `setLogLevel(logLevel, expiration)`, at the instant `now`. -/
def setLogLevel : Nat → ProcessEnv → Instant → Level → Expiration → St → Result Unit
  | 0, _, _, _, _, _ => Result.outOfFuel
  | fuel + 1, penv, now, logLevel, expiration, s0 =>
    let s := s0.enter
    if penv "NODE_ENV" = some "production" ∧ s0.logLevel.gt (-1) = true then
      match warn fuel penv now (msgAlreadySet logLevel) s with
      | Result.ok _ s1 => Result.ok () s1.leave
      | Result.thrown s1 => Result.thrown s1.leave
      | Result.outOfFuel => Result.outOfFuel
    else if expiration = Expiration.invalid then Result.thrown s.leave
    else
      let s1 := storeExpiration expiration s
      if logLevel.strictEq (-1) = true then
        Result.ok () { s1 with logLevel := getDefaultLogLevel penv }.leave
      else
        match nonDefaultLogLevelExpired fuel penv now s1 with
        | Result.ok true s2 =>
          Result.ok () { s2 with logLevel := getDefaultLogLevel penv }.leave
        | Result.ok false s2 =>
          if logLevel.gt 0 = true ∧ isProduction penv = true then
            match warn fuel penv now (msgProduction logLevel) s2 with
            | Result.ok _ s3 =>
              Result.ok () { s3 with logLevel := getDefaultLogLevel penv }.leave
            | Result.thrown s3 => Result.thrown s3.leave
            | Result.outOfFuel => Result.outOfFuel
          else
            match msg fuel penv now (msgOverride logLevel) { s2 with logLevel := logLevel } with
            | Result.ok _ s3 =>
              if s3.expiration = none then
                match warn fuel penv now msgNoExpiration s3 with
                | Result.ok _ s4 => Result.ok () s4.leave
                | Result.thrown s4 => Result.thrown s4.leave
                | Result.outOfFuel => Result.outOfFuel
              else Result.ok () s3.leave
            | Result.thrown s3 => Result.thrown s3.leave
            | Result.outOfFuel => Result.outOfFuel
        | Result.thrown s2 => Result.thrown s2.leave
        | Result.outOfFuel => Result.outOfFuel

/-- The method `nonDefaultLogLevelExpired`, at the instant `now`. -/
def nonDefaultLogLevelExpired : Nat → ProcessEnv → Instant → St → Result Bool
  | 0, _, _, _ => Result.outOfFuel
  | fuel + 1, penv, now, s =>
    match s.expiration with
    | none => Result.ok false s
    | some expiration =>
      if strGt (toISOString now) expiration = true then
        match warn fuel penv now msgExpired s with
        | Result.ok _ s1 => Result.ok true s1
        | Result.thrown s1 => Result.thrown s1
        | Result.outOfFuel => Result.outOfFuel
      else Result.ok false s

/-- The method `getLogLevel`, at the instant `now`. -/
def getLogLevel : Nat → ProcessEnv → Instant → St → Result Level
  | 0, _, _, _ => Result.outOfFuel
  | fuel + 1, penv, now, s =>
    if s.logLevel.strictEq (-1) = true then
      match setLogLevel fuel penv now (Level.int (-1)) Expiration.absent s with
      | Result.ok _ s1 => Result.ok s1.logLevel s1
      | Result.thrown s1 => Result.thrown s1
      | Result.outOfFuel => Result.outOfFuel
    else Result.ok s.logLevel s

/-- The method `writeLog(tag, message)`, at the instant `now`. It is an `async`
function without `await`: its body runs at the call, and what it would throw
rejects the promise it returns instead. The value is whether the promise is
fulfilled. -/
def writeLog : Nat → ProcessEnv → Instant → String → String → St → Result Bool
  | 0, _, _, _, _, _ => Result.outOfFuel
  | fuel + 1, penv, now, tag, message, s =>
    match getLogLevel fuel penv now s with
    | Result.ok lvl s1 => Result.ok true (gate lvl (toUpperCase tag) message s1)
    | Result.thrown s1 => Result.ok false s1
    | Result.outOfFuel => Result.outOfFuel

/-- The method `warn(message)`. -/
def warn : Nat → ProcessEnv → Instant → String → St → Result Unit
  | 0, _, _, _, _ => Result.outOfFuel
  | fuel + 1, penv, now, message, s =>
    match writeLog fuel penv now WARN message s with
    | Result.ok _ s1 => Result.ok () s1
    | Result.thrown s1 => Result.thrown s1
    | Result.outOfFuel => Result.outOfFuel

/-- The method `msg(message)`. -/
def msg : Nat → ProcessEnv → Instant → String → St → Result Unit
  | 0, _, _, _, _ => Result.outOfFuel
  | fuel + 1, penv, now, message, s =>
    match writeLog fuel penv now MSG message s with
    | Result.ok _ s1 => Result.ok () s1
    | Result.thrown s1 => Result.thrown s1
    | Result.outOfFuel => Result.outOfFuel

end

/-- The method `debug(message)`. -/
def debug (fuel : Nat) (penv : ProcessEnv) (now : Instant) (message : String) (s : St) :
    Result Bool :=
  writeLog fuel penv now DEBUG message s

/-- The method `diag(message)`. -/
def diag (fuel : Nat) (penv : ProcessEnv) (now : Instant) (message : String) (s : St) :
    Result Bool :=
  writeLog fuel penv now DIAG message s

/-- The method `message(message)`. -/
def message (fuel : Nat) (penv : ProcessEnv) (now : Instant) (text : String) (s : St) :
    Result Unit :=
  msg fuel penv now text s

/-- The method `log(message, tag)`; the tag is `LOG` when the caller gives
none. -/
def log (fuel : Nat) (penv : ProcessEnv) (now : Instant) (message tag : String) (s : St) :
    Result Bool :=
  writeLog fuel penv now tag message s

/-- The method `warning(message)`. -/
def warning (fuel : Nat) (penv : ProcessEnv) (now : Instant) (message : String) (s : St) :
    Result Unit :=
  warn fuel penv now message s

/-- The method `error(message)`. -/
def error (fuel : Nat) (penv : ProcessEnv) (now : Instant) (message : String) (s : St) :
    Result Unit :=
  match writeLog fuel penv now ERROR message s with
  | Result.ok _ s1 => Result.ok () s1
  | Result.thrown s1 => Result.thrown s1
  | Result.outOfFuel => Result.outOfFuel

/-- The method `getExpiration`. -/
def getExpiration (s : St) : Option String := s.expiration

/-- Fuel that is enough for every call of the class. -/
def enoughFuel : Nat := 16

/-! ## The calls without recursion

With fuel to spare, every call of the class has a closed form; the theorems
`getLogLevel_eq`, `writeLog_eq`, `warn_eq`, `msg_eq`,
`nonDefaultLogLevelExpired_eq` and `setLogLevel_eq` give it. -/

/-- The guard at the head of `setLogLevel`. -/
def finalized (penv : ProcessEnv) (s : St) : Prop :=
  penv "NODE_ENV" = some "production" ∧ s.logLevel.gt (-1) = true

instance (penv : ProcessEnv) (s : St) : Decidable (finalized penv s) := by
  unfold finalized; infer_instance

/-- What a call of `getLogLevel` leaves: a level of `-1` is replaced by the
default through `setLogLevel()`, which also clears the expiration. -/
def lazyInit (penv : ProcessEnv) (s : St) : St :=
  if s.logLevel.strictEq (-1) = true then
    { s.enter with expiration := none, logLevel := getDefaultLogLevel penv }.leave
  else s

/-- The test of `nonDefaultLogLevelExpired` on the stored expiration. -/
def expired (now : Instant) (s : St) : Bool :=
  match s.expiration with
  | none => false
  | some expiration => strGt (toISOString now) expiration

/-- The closed form of `setLogLevel`. -/
def setLogLevelFlat (penv : ProcessEnv) (now : Instant) (logLevel : Level)
    (expiration : Expiration) (s0 : St) : Result Unit :=
  if finalized penv s0 then
    Result.ok () (baseLog Channel.warn WARN (msgAlreadySet logLevel) s0.enter).leave
  else if expiration = Expiration.invalid then Result.thrown s0.enter.leave
  else
    let s1 := storeExpiration expiration s0.enter
    if logLevel.strictEq (-1) = true then
      Result.ok () { s1 with logLevel := getDefaultLogLevel penv }.leave
    else if expired now s1 = true then
      Result.ok () { baseLog Channel.warn WARN msgExpired (lazyInit penv s1) with
        logLevel := getDefaultLogLevel penv }.leave
    else if logLevel.gt 0 = true ∧ isProduction penv = true then
      Result.ok () { baseLog Channel.warn WARN (msgProduction logLevel) (lazyInit penv s1) with
        logLevel := getDefaultLogLevel penv }.leave
    else
      let s2 := lazyInit penv { s1 with logLevel := logLevel }
      let s3 := gate s2.logLevel MSG (msgOverride logLevel) s2
      if s3.expiration = none then
        Result.ok () (baseLog Channel.warn WARN msgNoExpiration (lazyInit penv s3)).leave
      else Result.ok () s3.leave

/-! ## Sequences of calls -/

/-- A call of the public interface of the controller, with the instant at
which it is made. -/
inductive Call where
  | set (logLevel : Level) (expiration : Expiration) (now : Instant) : Call
  | get (now : Instant) : Call
  deriving DecidableEq, Repr

/-- The state a call ends in, whether it returns or throws. -/
def Result.stateOr {α : Type} (r : Result α) (s : St) : St :=
  match r with
  | Result.ok _ s1 => s1
  | Result.thrown s1 => s1
  | Result.outOfFuel => s

/-- The value a call returns. -/
def Result.value {α : Type} (r : Result α) : Option α :=
  match r with
  | Result.ok v _ => some v
  | _ => none

/-- The state after one call. -/
def step (penv : ProcessEnv) (s : St) : Call → St
  | Call.set logLevel expiration now =>
    (setLogLevel enoughFuel penv now logLevel expiration s).stateOr s
  | Call.get now => (getLogLevel enoughFuel penv now s).stateOr s

/-- The state after a sequence of calls. -/
def run (penv : ProcessEnv) (s : St) (calls : List Call) : St :=
  calls.foldl (step penv) s

/-! ## Environment signals -/

/-- The names a loop over `vars` looks up, in the order of the lookups: every
element as given and then upper-cased. -/
def probes : List String → List String
  | [] => []
  | e :: rest => e :: toUpperCase e :: probes rest

/-- The names `getEnv` looks up, in the order of the lookups. -/
def envProbes : List String := probes envVars

/-- The value of the first name of a list that is filled. -/
def firstFilled (penv : ProcessEnv) : List String → Option String
  | [] => none
  | k :: rest =>
    match penv.filled k with
    | some v => some v
    | none => firstFilled penv rest

/-- An environment in which exactly one name is set. -/
def singleVar (k v : String) : ProcessEnv := fun x => if x = k then some v else none

/-- An environment in which nothing is set. -/
def emptyEnv : ProcessEnv := fun _ => none

/-- An environment in which exactly two names are set. -/
def twoVars (k1 v1 k2 v2 : String) : ProcessEnv :=
  fun x => if x = k1 then some v1 else if x = k2 then some v2 else none

/-! ## Instants used in the scenarios -/

/-- The instant 2026-11-04T00:00:00.000Z. -/
def t2026 : Instant :=
  { year := 2026, month := 11, day := 4, hour := 0, minute := 0, second := 0, ms := 0 }

/-- The instant 2020-01-01T00:00:00.000Z. -/
def t2020 : Instant :=
  { year := 2020, month := 1, day := 1, hour := 0, minute := 0, second := 0, ms := 0 }

/-- The instant 2027-01-01T00:00:00.000Z. -/
def t2027 : Instant :=
  { year := 2027, month := 1, day := 1, hour := 0, minute := 0, second := 0, ms := 0 }

/-- The instant 2028-06-15T12:00:00.000Z. -/
def t2028 : Instant :=
  { year := 2028, month := 6, day := 15, hour := 12, minute := 0, second := 0, ms := 0 }

/-- The instant 2999-01-01T00:00:00.000Z. -/
def t2999 : Instant :=
  { year := 2999, month := 1, day := 1, hour := 0, minute := 0, second := 0, ms := 0 }

/-- The instant +010000-01-01T00:00:00.000Z, the first of the year 10000. -/
def t10000 : Instant :=
  { year := 10000, month := 1, day := 1, hour := 0, minute := 0, second := 0, ms := 0 }

/-- An environment in which exactly three names are set. -/
def threeVars (k1 v1 k2 v2 k3 v3 : String) : ProcessEnv :=
  fun x => if x = k1 then some v1 else if x = k2 then some v2
    else if x = k3 then some v3 else none

/-- The names `getDefaultLogLevel` looks up, in the order of the lookups. -/
def levelProbes : List String := probes levelVars

/-- While a call of `setLogLevel` started in the state `s` runs: the call is
open, at most one nested call has been open inside it, and at most `calls`
calls of `setLogLevel` have started. -/
def framesWithin (s : St) (calls : Nat) (x : St) : Prop :=
  x.depth = s.depth + 1 ∧ x.maxDepth ≤ max s.maxDepth (s.depth + 2) ∧
  x.setCalls ≤ s.setCalls + calls

/-! ## Decimal text -/

/-- The decimal digits of `n` put before `acc`, the most significant first,
with the fuel given. -/
def natTextAux : Nat → Nat → List Char → List Char
  | 0, _, acc => acc
  | fuel + 1, n, acc =>
    if n < 10 then digit n :: acc else natTextAux fuel (n / 10) (digit n :: acc)

/-- The decimal text of a natural number, without leading zeros. -/
def natText (n : Nat) : List Char := natTextAux (n + 1) n []

/-- The decimal text of an integer: a `-` for a negative one, and the digits. -/
def decimalText (n : Int) : String :=
  String.mk (if n < 0 then '-' :: natText n.natAbs else natText n.natAbs)

/-- The names the docstring of `getEnv` lists for the environment: `env`,
`deployEnvironment`, `environment`, or `stage`. -/
def documentedEnvVars : List String := ["env", "deployEnvironment", "environment", "stage"]

/-- The documented names, each as given and then upper-cased. -/
def documentedProbes : List String := probes documentedEnvVars

/-! ## The closed forms -/

theorem strictEq_gt (l : Level) (h : l.strictEq (-1) = true) : l.gt (-1) = false := by
  cases l with
  | nan => rfl
  | inf b => simp [Level.strictEq] at h
  | int n =>
    have hn : n = -1 := by simpa [Level.strictEq] using h
    simp [Level.gt, hn]

theorem gt_strictEq (l : Level) (h : l.gt (-1) = true) : l.strictEq (-1) = false := by
  cases l with
  | nan => rfl
  | inf b => rfl
  | int n =>
    have hn : -1 < n := by simpa [Level.gt] using h
    have hne : n ≠ -1 := by omega
    simp [Level.strictEq, hne]

theorem lazyInit_of_set (penv : ProcessEnv) (s : St) (h : s.logLevel.strictEq (-1) = false) :
    lazyInit penv s = s := by
  simp [lazyInit, h]

theorem lazyInit_out (penv : ProcessEnv) (s : St) : (lazyInit penv s).out = s.out := by
  unfold lazyInit; split <;> rfl

theorem lazyInit_logLevel (penv : ProcessEnv) (s : St) :
    (lazyInit penv s).logLevel =
      if s.logLevel.strictEq (-1) = true then getDefaultLogLevel penv else s.logLevel := by
  unfold lazyInit; split <;> rfl

theorem setLogLevel_unset (fuel : Nat) (penv : ProcessEnv) (now : Instant) (s : St)
    (h : s.logLevel.strictEq (-1) = true) :
    setLogLevel (fuel + 1) penv now (Level.int (-1)) Expiration.absent s =
      Result.ok () (lazyInit penv s) := by
  have hg : s.logLevel.gt (-1) = false := strictEq_gt _ h
  have h1 : (Level.int (-1)).strictEq (-1) = true := rfl
  simp [setLogLevel, lazyInit, storeExpiration, h, St.enter, hg, h1]

theorem getLogLevel_eq (fuel : Nat) (penv : ProcessEnv) (now : Instant) (s : St) :
    getLogLevel (fuel + 2) penv now s =
      Result.ok (lazyInit penv s).logLevel (lazyInit penv s) := by
  by_cases h : s.logLevel.strictEq (-1) = true
  · rw [getLogLevel, if_pos h, setLogLevel_unset _ _ _ _ h]
  · simp [getLogLevel, lazyInit, h]

theorem writeLog_eq (fuel : Nat) (penv : ProcessEnv) (now : Instant) (tag message : String)
    (s : St) :
    writeLog (fuel + 3) penv now tag message s =
      Result.ok true (gate (lazyInit penv s).logLevel (toUpperCase tag) message
        (lazyInit penv s)) := by
  rw [writeLog, getLogLevel_eq]

theorem warn_eq (fuel : Nat) (penv : ProcessEnv) (now : Instant) (message : String)
    (s : St) :
    warn (fuel + 4) penv now message s =
      Result.ok () (baseLog Channel.warn WARN message (lazyInit penv s)) := by
  rw [warn, writeLog_eq]
  have h : toUpperCase WARN = WARN := by decide
  have hne : WARN ≠ ERROR := by decide
  rw [h]
  simp [gate, hne]

theorem msg_eq (fuel : Nat) (penv : ProcessEnv) (now : Instant) (message : String)
    (s : St) :
    msg (fuel + 4) penv now message s =
      Result.ok () (gate (lazyInit penv s).logLevel MSG message (lazyInit penv s)) := by
  rw [msg, writeLog_eq]
  have h : toUpperCase MSG = MSG := by decide
  rw [h]

theorem nonDefaultLogLevelExpired_eq (fuel : Nat) (penv : ProcessEnv) (now : Instant)
    (s : St) :
    nonDefaultLogLevelExpired (fuel + 5) penv now s =
      if expired now s = true then
        Result.ok true (baseLog Channel.warn WARN msgExpired (lazyInit penv s))
      else Result.ok false s := by
  rw [nonDefaultLogLevelExpired]
  unfold expired
  cases hx : s.expiration with
  | none => simp
  | some x =>
    by_cases hgt : strGt (toISOString now) x = true
    · simp [hgt, warn_eq]
    · simp [hgt]

/-- With fuel 6 or more, `setLogLevel` is its closed form: it returns or
throws, and never runs out of fuel. -/
theorem setLogLevel_eq (fuel : Nat) (penv : ProcessEnv) (now : Instant) (logLevel : Level)
    (expiration : Expiration) (s : St) :
    setLogLevel (fuel + 6) penv now logLevel expiration s =
      setLogLevelFlat penv now logLevel expiration s := by
  rw [setLogLevel]
  unfold setLogLevelFlat finalized
  by_cases hg : penv "NODE_ENV" = some "production" ∧ s.logLevel.gt (-1) = true
  · rw [if_pos hg, if_pos hg, warn_eq]
    have hs : s.enter.logLevel.strictEq (-1) = false := gt_strictEq _ hg.2
    rw [lazyInit_of_set _ _ hs]
  · rw [if_neg hg, if_neg hg]
    by_cases he : expiration = Expiration.invalid
    · rw [if_pos he, if_pos he]
    · rw [if_neg he, if_neg he]
      simp only [nonDefaultLogLevelExpired_eq, warn_eq, msg_eq]
      split_ifs <;> simp_all

/-! ## ISO strings and chronological order -/

theorem digit_toNat (d : Nat) : (digit d).toNat = 48 + d % 10 := by
  have h : d % 10 < 10 := Nat.mod_lt d (by norm_num)
  unfold digit
  generalize d % 10 = r at h
  interval_cases r <;> rfl

theorem strLt_sep (x : Char) (c d : List Char) : strLt (x :: c) (x :: d) = strLt c d := by
  simp [strLt]

theorem strLt_pad2 (m n : Nat) (hm : m < 100) (hn : n < 100) (c d : List Char) :
    strLt (pad2 m ++ c) (pad2 n ++ d) =
      (decide (m < n) || (decide (m = n) && strLt c d)) := by
  simp only [pad2, List.cons_append, List.nil_append, strLt, digit_toNat]
  rcases Nat.lt_trichotomy m n with h | h | h
  · have h1 : decide (m < n) = true := by simpa using h
    rw [h1, Bool.true_or]
    split_ifs <;> first | rfl | (exfalso; omega)
  · subst h
    simp
  · have h1 : decide (m < n) = false := by simpa using Nat.le_of_lt h
    have h2 : decide (m = n) = false := by simpa using Nat.ne_of_gt h
    rw [h1, h2, Bool.false_or, Bool.false_and]
    split_ifs <;> first | rfl | (exfalso; omega)

theorem strLt_pad3 (m n : Nat) (hm : m < 1000) (hn : n < 1000) (c d : List Char) :
    strLt (pad3 m ++ c) (pad3 n ++ d) =
      (decide (m < n) || (decide (m = n) && strLt c d)) := by
  simp only [pad3, List.cons_append, List.nil_append, strLt, digit_toNat]
  rcases Nat.lt_trichotomy m n with h | h | h
  · have h1 : decide (m < n) = true := by simpa using h
    rw [h1, Bool.true_or]
    split_ifs <;> first | rfl | (exfalso; omega)
  · subst h
    simp
  · have h1 : decide (m < n) = false := by simpa using Nat.le_of_lt h
    have h2 : decide (m = n) = false := by simpa using Nat.ne_of_gt h
    rw [h1, h2, Bool.false_or, Bool.false_and]
    split_ifs <;> first | rfl | (exfalso; omega)

theorem strLt_pad4 (m n : Nat) (hm : m < 10000) (hn : n < 10000) (c d : List Char) :
    strLt (pad4 m ++ c) (pad4 n ++ d) =
      (decide (m < n) || (decide (m = n) && strLt c d)) := by
  simp only [pad4, List.cons_append, List.nil_append, strLt, digit_toNat]
  rcases Nat.lt_trichotomy m n with h | h | h
  · have h1 : decide (m < n) = true := by simpa using h
    rw [h1, Bool.true_or]
    split_ifs <;> first | rfl | (exfalso; omega)
  · subst h
    simp
  · have h1 : decide (m < n) = false := by simpa using Nat.le_of_lt h
    have h2 : decide (m = n) = false := by simpa using Nat.ne_of_gt h
    rw [h1, h2, Bool.false_or, Bool.false_and]
    split_ifs <;> first | rfl | (exfalso; omega)


/-- Within the years 0 to 9999 the comparison of two ISO strings is the
chronological order of the instants. -/
theorem strGt_toISOString (a b : Instant) (ha : a.wellFormed) (hb : b.wellFormed)
    (hay : 0 ≤ a.year ∧ a.year ≤ 9999) (hby : 0 ≤ b.year ∧ b.year ≤ 9999) :
    strGt (toISOString a) (toISOString b) = true ↔ b.before a := by
  obtain ⟨-, -, -, ha3, -, ha5, ha6, ha7, ha8, ha9⟩ := ha
  obtain ⟨-, -, -, hb3, -, hb5, hb6, hb7, hb8, hb9⟩ := hb
  obtain ⟨ya, hya⟩ := Int.eq_ofNat_of_zero_le hay.1
  obtain ⟨yb, hyb⟩ := Int.eq_ofNat_of_zero_le hby.1
  have hya4 : ya < 10000 := by omega
  have hyb4 : yb < 10000 := by omega
  have ia : isoYear a.year = pad4 ya := by
    rw [isoYear, if_pos hay, hya]; rfl
  have ib : isoYear b.year = pad4 yb := by
    rw [isoYear, if_pos hby, hyb]; rfl
  simp only [strGt, toISOString, ia, ib]
  rw [strLt_pad4 _ _ hyb4 hya4, strLt_sep, strLt_pad2 _ _ (by omega) (by omega), strLt_sep,
    strLt_pad2 _ _ (by omega) (by omega), strLt_sep, strLt_pad2 _ _ (by omega) (by omega),
    strLt_sep, strLt_pad2 _ _ (by omega) (by omega), strLt_sep,
    strLt_pad2 _ _ (by omega) (by omega), strLt_sep, strLt_pad3 _ _ (by omega) (by omega)]
  have hz : strLt ['Z'] ['Z'] = false := by simp [strLt]
  simp only [Instant.before, hya, hyb, hz, Bool.or_eq_true, Bool.and_eq_true,
    decide_eq_true_eq, Nat.cast_lt, Nat.cast_inj, Bool.false_eq_true, and_false, or_false]

/-- An expiration before year 0 prints with a leading `-`, below every digit. -/
theorem strGt_toISOString_of_neg (a b : Instant) (hay : 0 ≤ a.year ∧ a.year ≤ 9999)
    (hby : b.year < 0) : strGt (toISOString a) (toISOString b) = true := by
  have ia : isoYear a.year = pad4 a.year.toNat := by rw [isoYear, if_pos hay]
  have ib : isoYear b.year = '-' :: pad6 b.year.natAbs := by
    rw [isoYear, if_neg (by omega), if_pos hby]
  simp only [strGt, toISOString, ia, ib, pad4, List.cons_append, strLt, digit_toNat]
  have : ('-' : Char).toNat = 45 := rfl
  rw [this, if_pos (by omega)]


/-! ## Facts about the environment and the state -/

theorem isProduction_of_getEnv (penv : ProcessEnv) (h : getEnv penv = PROD) :
    isProduction penv = true := by
  simp [isProduction, h]

theorem getDefaultLogLevel_of_prod (penv : ProcessEnv) (h : getEnv penv = PROD) :
    getDefaultLogLevel penv = Level.int 0 := by
  simp [getDefaultLogLevel, isNotProduction, isProduction_of_getEnv penv h]

theorem getLogLevel_of_set (fuel : Nat) (penv : ProcessEnv) (now : Instant) (s : St)
    (h : s.logLevel.strictEq (-1) = false) :
    getLogLevel (fuel + 2) penv now s = Result.ok s.logLevel s := by
  rw [getLogLevel_eq, lazyInit_of_set _ _ h]

theorem getLogLevel_value (fuel : Nat) (penv : ProcessEnv) (now : Instant) (s : St)
    (h : s.logLevel = getDefaultLogLevel penv) :
    ∃ s1, getLogLevel (fuel + 2) penv now s = Result.ok (getDefaultLogLevel penv) s1 := by
  rw [getLogLevel_eq]
  refine ⟨lazyInit penv s, ?_⟩
  rw [lazyInit_logLevel]
  split <;> simp [h]

/-! ## The claims -/

/-- C1. In production, from a level of `-1`, `setLogLevel(L, expiration)` with
`L > 0` and an expiration that is absent or a valid date returns, the
`getLogLevel()` that follows returns 0, and the call has written a `WARN`
record on the warn channel. -/
theorem setLogLevel_production_rejects (penv : ProcessEnv) (hprod : getEnv penv = PROD)
    (s : St) (hs : s.logLevel = Level.int (-1)) (L : Int) (hL : 0 < L)
    (expiration : Expiration) (he : expiration ≠ Expiration.invalid)
    (now later : Instant) (fuel fuel2 : Nat) :
    ∃ s1 s2 rs,
      setLogLevel (fuel + 6) penv now (Level.int L) expiration s = Result.ok () s1 ∧
      getLogLevel (fuel2 + 2) penv later s1 = Result.ok (Level.int 0) s2 ∧
      s1.out = s.out ++ rs ∧ ∃ r ∈ rs, r.channel = Channel.warn ∧ r.tag = WARN := by
  have hd : getDefaultLogLevel penv = Level.int 0 := getDefaultLogLevel_of_prod penv hprod
  have hp : isProduction penv = true := isProduction_of_getEnv penv hprod
  have hnf : ¬ finalized penv s := by simp [finalized, hs, Level.gt]
  have hL1 : (Level.int L).strictEq (-1) = false := by
    have : L ≠ -1 := by omega
    simp [Level.strictEq, this]
  have hL0 : (Level.int L).gt 0 = true := by simp [Level.gt, hL]
  have h0 : (Level.int 0).strictEq (-1) = false := rfl
  rw [setLogLevel_eq]
  unfold setLogLevelFlat
  rw [if_neg hnf, if_neg he]
  simp only [hL1, hL0, hp, hd, and_self, if_true, Bool.false_eq_true, if_false]
  by_cases hx : expired now (storeExpiration expiration s.enter) = true
  · rw [if_pos hx]
    refine ⟨_, _, [⟨Channel.warn, WARN, msgExpired⟩], rfl, getLogLevel_of_set _ _ _ _ h0, ?_, ?_⟩
    · cases expiration <;> simp [St.leave, baseLog, lazyInit_out, storeExpiration, St.enter]
    · exact ⟨_, List.mem_singleton.2 rfl, rfl, rfl⟩
  · rw [if_neg hx]
    refine ⟨_, _, [⟨Channel.warn, WARN, msgProduction (Level.int L)⟩], rfl,
      getLogLevel_of_set _ _ _ _ h0, ?_, ?_⟩
    · cases expiration <;> simp [St.leave, baseLog, lazyInit_out, storeExpiration, St.enter]
    · exact ⟨_, List.mem_singleton.2 rfl, rfl, rfl⟩


theorem setLogLevel_production_rejects_witness :
    getEnv (singleVar "env" "prod") = PROD ∧ St.init.logLevel = Level.int (-1) ∧
    (0 : Int) < 5 ∧ Expiration.date t2999 ≠ Expiration.invalid ∧
    ∃ s1 s2 rs,
      setLogLevel (0 + 6) (singleVar "env" "prod") t2026 (Level.int 5) (Expiration.date t2999)
        St.init = Result.ok () s1 ∧
      getLogLevel (0 + 2) (singleVar "env" "prod") t2027 s1 = Result.ok (Level.int 0) s2 ∧
      s1.out = St.init.out ++ rs ∧ ∃ r ∈ rs, r.channel = Channel.warn ∧ r.tag = WARN :=
  ⟨by decide, rfl, by decide, by decide,
    setLogLevel_production_rejects (singleVar "env" "prod") (by decide) St.init rfl 5
      (by decide) (Expiration.date t2999) (by decide) t2026 t2027 0 0⟩

theorem gate_logLevel (lvl : Level) (tag message : String) (s : St) :
    (gate lvl tag message s).logLevel = s.logLevel := by
  unfold gate; split_ifs <;> rfl

theorem gate_expiration (lvl : Level) (tag message : String) (s : St) :
    (gate lvl tag message s).expiration = s.expiration := by
  unfold gate; split_ifs <;> rfl

theorem lazyInit_floor (penv : ProcessEnv) (hprod : getEnv penv = PROD) (s : St)
    (h : s.logLevel.gt 0 = false) : (lazyInit penv s).logLevel.gt 0 = false := by
  rw [lazyInit_logLevel]
  split
  · rw [getDefaultLogLevel_of_prod penv hprod]; rfl
  · exact h

/-- In production `setLogLevel` keeps a stored level that is not above 0. -/
theorem setLogLevelFlat_floor (penv : ProcessEnv) (hprod : getEnv penv = PROD)
    (now : Instant) (logLevel : Level) (expiration : Expiration) (s : St)
    (h : s.logLevel.gt 0 = false) :
    ((setLogLevelFlat penv now logLevel expiration s).stateOr s).logLevel.gt 0 = false := by
  have hd : getDefaultLogLevel penv = Level.int 0 := getDefaultLogLevel_of_prod penv hprod
  have hp : isProduction penv = true := isProduction_of_getEnv penv hprod
  have h0 : (Level.int 0).gt 0 = false := rfl
  unfold setLogLevelFlat
  simp only [hd, hp, and_true]
  split_ifs with h1 h2 h3 h4 h5 h6
  · exact h
  · exact h
  · exact h0
  · exact h0
  · exact h0
  · simp only [Result.stateOr, St.leave, baseLog]
    rw [lazyInit_logLevel, gate_logLevel]
    split
    · rw [hd]; exact h0
    · rw [lazyInit_logLevel]
      split
      · rw [hd]; exact h0
      · simpa using h5
  · simp only [Result.stateOr, St.leave]
    rw [gate_logLevel, lazyInit_logLevel]
    split
    · rw [hd]; exact h0
    · simpa using h5

theorem step_floor (penv : ProcessEnv) (hprod : getEnv penv = PROD) (s : St) (c : Call)
    (h : s.logLevel.gt 0 = false) : (step penv s c).logLevel.gt 0 = false := by
  cases c with
  | set logLevel expiration now =>
    have hf : enoughFuel = 10 + 6 := rfl
    simp only [step, hf, setLogLevel_eq]
    exact setLogLevelFlat_floor penv hprod now logLevel expiration s h
  | get now =>
    have hf : enoughFuel = 14 + 2 := rfl
    simp only [step, hf, getLogLevel_eq, Result.stateOr]
    exact lazyInit_floor penv hprod s h

theorem run_floor (penv : ProcessEnv) (hprod : getEnv penv = PROD) (calls : List Call) :
    ∀ s : St, s.logLevel.gt 0 = false → (run penv s calls).logLevel.gt 0 = false := by
  induction calls with
  | nil => intro s h; exact h
  | cons c rest ih =>
    intro s h
    exact ih (step penv s c) (step_floor penv hprod s c h)

/-- C2. In production, after any sequence of `setLogLevel` and `getLogLevel`
calls from the initial state, made at any instants with any levels and
expirations, the stored level is not above 0, and `getLogLevel()` returns a
level that is not above 0. -/
theorem production_floor (penv : ProcessEnv) (hprod : getEnv penv = PROD)
    (calls : List Call) (now : Instant) (fuel : Nat) :
    (run penv St.init calls).logLevel.gt 0 = false ∧
    ∃ l s1, getLogLevel (fuel + 2) penv now (run penv St.init calls) = Result.ok l s1 ∧
      l.gt 0 = false := by
  have h := run_floor penv hprod calls St.init rfl
  refine ⟨h, _, _, getLogLevel_eq _ _ _ _, lazyInit_floor penv hprod _ h⟩

theorem production_floor_witness :
    getEnv (singleVar "env" "prod") = PROD ∧
    (run (singleVar "env" "prod") St.init
      [Call.set (Level.int 5) (Expiration.date t2999) t2026, Call.get t2027,
       Call.set (Level.int 3) Expiration.absent t2027]).logLevel.gt 0 = false ∧
    ∃ l s1, getLogLevel (0 + 2) (singleVar "env" "prod") t2028
      (run (singleVar "env" "prod") St.init
        [Call.set (Level.int 5) (Expiration.date t2999) t2026, Call.get t2027,
         Call.set (Level.int 3) Expiration.absent t2027]) = Result.ok l s1 ∧
      l.gt 0 = false :=
  ⟨by decide, production_floor (singleVar "env" "prod") (by decide)
    [Call.set (Level.int 5) (Expiration.date t2999) t2026, Call.get t2027,
     Call.set (Level.int 3) Expiration.absent t2027] t2028 0⟩

theorem isProduction_of_not_prod (penv : ProcessEnv)
    (h : getEnv penv = TEST ∨ getEnv penv = DEV) : isProduction penv = false := by
  rcases h with h | h <;> simp [isProduction, h] <;> decide

theorem expired_storeExpiration_absent (now : Instant) (s : St) :
    expired now (storeExpiration Expiration.absent s) = false := rfl

/-- C3. The code at the failing input: in a DEV environment `setLogLevel(5, t)`
is accepted at an instant before `t`, and a `getLogLevel()` made after `t`
still returns 5, while the default level is 0. -/
theorem override_outlives_expiration :
    t2026.before t2027 ∧ t2027.before t2028 ∧
    setLogLevel 6 (singleVar "env" "dev") t2026 (Level.int 5) (Expiration.date t2027) St.init =
      Result.ok ()
        { logLevel := Level.int 5, expiration := some (toISOString t2027),
          out := [{ channel := Channel.info, tag := MSG,
                    message := msgOverride (Level.int 5) }],
          setCalls := 1, depth := 0, maxDepth := 1 } ∧
    getLogLevel 2 (singleVar "env" "dev") t2028
        { logLevel := Level.int 5, expiration := some (toISOString t2027),
          out := [{ channel := Channel.info, tag := MSG,
                    message := msgOverride (Level.int 5) }],
          setCalls := 1, depth := 0, maxDepth := 1 } =
      Result.ok (Level.int 5)
        { logLevel := Level.int 5, expiration := some (toISOString t2027),
          out := [{ channel := Channel.info, tag := MSG,
                    message := msgOverride (Level.int 5) }],
          setCalls := 1, depth := 0, maxDepth := 1 } ∧
    getDefaultLogLevel (singleVar "env" "dev") = Level.int 0 := by
  decide

/-- C5. Outside production, from a state the guard of `setLogLevel` does not
apply to, `setLogLevel(L)` with `L` from 0 to 5 and no expiration returns, and
the `getLogLevel()` that follows returns `L`. -/
theorem override_round_trip (penv : ProcessEnv)
    (henv : getEnv penv = TEST ∨ getEnv penv = DEV) (L : Int) (hL : 0 ≤ L ∧ L ≤ 5)
    (s : St) (hs : ¬ finalized penv s) (now later : Instant) (fuel fuel2 : Nat) :
    ∃ s1 s2,
      setLogLevel (fuel + 6) penv now (Level.int L) Expiration.absent s = Result.ok () s1 ∧
      getLogLevel (fuel2 + 2) penv later s1 = Result.ok (Level.int L) s2 := by
  have hp : isProduction penv = false := isProduction_of_not_prod penv henv
  have hL1 : (Level.int L).strictEq (-1) = false := by
    have : L ≠ -1 := by omega
    simp [Level.strictEq, this]
  have he : Expiration.absent ≠ Expiration.invalid := by decide
  rw [setLogLevel_eq]
  unfold setLogLevelFlat
  rw [if_neg hs, if_neg he]
  simp only [hL1, hp, expired_storeExpiration_absent, and_false, Bool.false_eq_true, if_false]
  rw [lazyInit_of_set penv _ hL1]
  have hx : (gate (Level.int L) MSG (msgOverride (Level.int L))
      { storeExpiration Expiration.absent s.enter with logLevel := Level.int L }).expiration
      = none := by
    rw [gate_expiration]; rfl
  have hl : (gate (Level.int L) MSG (msgOverride (Level.int L))
      { storeExpiration Expiration.absent s.enter with logLevel := Level.int L }).logLevel
      = Level.int L := by
    rw [gate_logLevel]
  rw [if_pos hx]
  have hl1 : (gate (Level.int L) MSG (msgOverride (Level.int L))
      { storeExpiration Expiration.absent s.enter with
        logLevel := Level.int L }).logLevel.strictEq (-1) = false := by
    rw [hl]; exact hL1
  rw [lazyInit_of_set penv _ hl1]
  have key : ∀ S : St, S.logLevel = Level.int L →
      ∃ s1 s2, (Result.ok () S : Result Unit) = Result.ok () s1 ∧
        getLogLevel (fuel2 + 2) penv later s1 = Result.ok (Level.int L) s2 := by
    intro S hS
    refine ⟨S, S, rfl, ?_⟩
    rw [getLogLevel_of_set _ _ _ _ (by rw [hS]; exact hL1), hS]
  exact key _ hl

theorem override_round_trip_witness :
    (getEnv (singleVar "env" "test") = TEST ∨ getEnv (singleVar "env" "test") = DEV) ∧
    ((0 : Int) ≤ 4 ∧ (4 : Int) ≤ 5) ∧ ¬ finalized (singleVar "env" "test") St.init ∧
    ∃ s1 s2,
      setLogLevel (0 + 6) (singleVar "env" "test") t2026 (Level.int 4) Expiration.absent
        St.init = Result.ok () s1 ∧
      getLogLevel (0 + 2) (singleVar "env" "test") t2027 s1 = Result.ok (Level.int 4) s2 :=
  ⟨by decide, by decide, by decide,
    override_round_trip (singleVar "env" "test") (by decide) 4 (by decide) St.init
      (by decide) t2026 t2027 0 0⟩

/-- C6. When `NODE_ENV` is `production` and the stored level is above `-1`,
`setLogLevel` returns for every level and every expiration, an invalid one
included, leaves the stored level and the stored expiration as they were, and
writes one `WARN` record that names the ignored call. -/
theorem setLogLevel_finalized_noop (penv : ProcessEnv) (s : St)
    (hn : penv "NODE_ENV" = some "production") (hl : s.logLevel.gt (-1) = true)
    (logLevel : Level) (expiration : Expiration) (now : Instant) (fuel : Nat) :
    ∃ s1, setLogLevel (fuel + 6) penv now logLevel expiration s = Result.ok () s1 ∧
      s1.logLevel = s.logLevel ∧ s1.expiration = s.expiration ∧
      s1.out = s.out ++ [{ channel := Channel.warn, tag := WARN,
                           message := msgAlreadySet logLevel }] := by
  have hf : finalized penv s := ⟨hn, hl⟩
  rw [setLogLevel_eq]
  unfold setLogLevelFlat
  rw [if_pos hf]
  exact ⟨_, rfl, rfl, rfl, rfl⟩

theorem setLogLevel_finalized_noop_witness :
    singleVar "NODE_ENV" "production" "NODE_ENV" = some "production" ∧
    ({ St.init with logLevel := Level.int 0 } : St).logLevel.gt (-1) = true ∧
    ∃ s1, setLogLevel (0 + 6) (singleVar "NODE_ENV" "production") t2026 (Level.int 5)
        Expiration.invalid { St.init with logLevel := Level.int 0 } = Result.ok () s1 ∧
      s1.logLevel = ({ St.init with logLevel := Level.int 0 } : St).logLevel ∧
      s1.expiration = ({ St.init with logLevel := Level.int 0 } : St).expiration ∧
      s1.out = ({ St.init with logLevel := Level.int 0 } : St).out ++
        [{ channel := Channel.warn, tag := WARN,
           message := msgAlreadySet (Level.int 5) }] :=
  ⟨by decide, by decide,
    setLogLevel_finalized_noop (singleVar "NODE_ENV" "production")
      { St.init with logLevel := Level.int 0 } (by decide) (by decide) (Level.int 5)
      Expiration.invalid t2026 0⟩

/-- C4, as stated, fails: with an expiration that gives an invalid date and the
guard not applying, `setLogLevel` throws. -/
theorem setLogLevel_invalid_expiration_throws :
    setLogLevel 6 emptyEnv t2026 (Level.int 5) Expiration.invalid St.init =
      Result.thrown { St.init with setCalls := 1, maxDepth := 1 } := by
  decide

/-- C4, amended. With fuel 6 or more `setLogLevel` never runs out of fuel; it
returns exactly when the expiration is absent or a valid date, or the guard
applies; with an expiration that gives an invalid date and the guard not
applying it throws, and the stored level, the stored expiration and the
console are as before the call. -/
theorem setLogLevel_returns_iff (penv : ProcessEnv) (now : Instant) (logLevel : Level)
    (expiration : Expiration) (s : St) (fuel : Nat) :
    ((∃ s1, setLogLevel (fuel + 6) penv now logLevel expiration s = Result.ok () s1) ↔
      (expiration ≠ Expiration.invalid ∨ finalized penv s)) ∧
    ((∃ s1, setLogLevel (fuel + 6) penv now logLevel expiration s = Result.thrown s1 ∧
        s1.logLevel = s.logLevel ∧ s1.expiration = s.expiration ∧ s1.out = s.out) ↔
      (expiration = Expiration.invalid ∧ ¬ finalized penv s)) := by
  rw [setLogLevel_eq]
  unfold setLogLevelFlat
  by_cases hf : finalized penv s
  · rw [if_pos hf]
    simp [hf]
  · rw [if_neg hf]
    by_cases he : expiration = Expiration.invalid
    · rw [if_pos he]
      simp [hf, he, St.leave, St.enter]
    · rw [if_neg he]
      simp only [hf, he, ne_eq, not_false_eq_true, or_false, iff_true, false_and, iff_false,
        not_exists]
      constructor
      · split_ifs <;> exact ⟨_, rfl⟩
      · intro s1
        split_ifs <;> simp

theorem setLogLevel_returns_iff_witness :
    (∃ s1, setLogLevel (0 + 6) emptyEnv t2026 (Level.int 5) (Expiration.date t2027) St.init =
      Result.ok () s1) ∧
    (∃ s1, setLogLevel (0 + 6) emptyEnv t2026 (Level.int 5) Expiration.invalid St.init =
        Result.thrown s1 ∧
      s1.logLevel = St.init.logLevel ∧ s1.expiration = St.init.expiration ∧
      s1.out = St.init.out) :=
  ⟨(setLogLevel_returns_iff emptyEnv t2026 (Level.int 5) (Expiration.date t2027) St.init
      0).1.2 (Or.inl (by decide)),
   (setLogLevel_returns_iff emptyEnv t2026 (Level.int 5) Expiration.invalid St.init
      0).2.2 ⟨rfl, by decide⟩⟩

theorem strictEq_of_ne (L : Level) (h : L ≠ Level.int (-1)) : L.strictEq (-1) = false := by
  cases L with
  | nan => rfl
  | inf b => rfl
  | int n =>
    have hn : n ≠ -1 := fun hn => h (by rw [hn])
    simp [Level.strictEq, hn]

/-- An expiration before a clock in the years 0 to 9999 compares as expired. -/
theorem strGt_of_before (now t : Instant) (hnow : now.wellFormed) (ht : t.wellFormed)
    (hera : 0 ≤ now.year ∧ now.year ≤ 9999) (hpast : t.before now) :
    strGt (toISOString now) (toISOString t) = true := by
  by_cases hneg : t.year < 0
  · exact strGt_toISOString_of_neg now t hera hneg
  · have hty : 0 ≤ t.year ∧ t.year ≤ 9999 := by
      unfold Instant.before at hpast
      omega
    exact (strGt_toISOString now t hnow ht hera hty).2 hpast

/-- C7. With a clock in the years 0 to 9999, from a state the guard does not
apply to, `setLogLevel(L, t)` with `L` other than `-1` and `t` a date before
the current instant returns and writes the `WARN` record of the expired
override, and the `getLogLevel()` that follows returns the default level. -/
theorem setLogLevel_expired_refused (penv : ProcessEnv) (s : St) (hs : ¬ finalized penv s)
    (L : Level) (hL : L ≠ Level.int (-1)) (t now : Instant) (ht : t.wellFormed)
    (hnow : now.wellFormed) (hera : 0 ≤ now.year ∧ now.year ≤ 9999) (hpast : t.before now)
    (later : Instant) (fuel fuel2 : Nat) :
    ∃ s1 s2 rs,
      setLogLevel (fuel + 6) penv now L (Expiration.date t) s = Result.ok () s1 ∧
      getLogLevel (fuel2 + 2) penv later s1 = Result.ok (getDefaultLogLevel penv) s2 ∧
      s1.out = s.out ++ rs ∧
      { channel := Channel.warn, tag := WARN, message := msgExpired } ∈ rs := by
  have hL1 : L.strictEq (-1) = false := strictEq_of_ne L hL
  have he : Expiration.date t ≠ Expiration.invalid := by simp
  have hx : expired now (storeExpiration (Expiration.date t) s.enter) = true :=
    strGt_of_before now t hnow ht hera hpast
  rw [setLogLevel_eq]
  unfold setLogLevelFlat
  rw [if_neg hs, if_neg he]
  simp only [hL1, hx, Bool.false_eq_true, if_false, if_true]
  obtain ⟨s2, h2⟩ := getLogLevel_value fuel2 penv later
    ({ baseLog Channel.warn WARN msgExpired
        (lazyInit penv (storeExpiration (Expiration.date t) s.enter)) with
      logLevel := getDefaultLogLevel penv } : St).leave rfl
  refine ⟨_, s2, [{ channel := Channel.warn, tag := WARN, message := msgExpired }], rfl,
    h2, ?_, List.mem_singleton.2 rfl⟩
  simp [St.leave, baseLog, lazyInit_out, storeExpiration, St.enter]

theorem setLogLevel_expired_refused_witness :
    ¬ finalized (singleVar "env" "dev") St.init ∧ Level.int 5 ≠ Level.int (-1) ∧
    t2020.wellFormed ∧ t2026.wellFormed ∧ ((0 : Int) ≤ t2026.year ∧ t2026.year ≤ 9999) ∧
    t2020.before t2026 ∧
    ∃ s1 s2 rs,
      setLogLevel (0 + 6) (singleVar "env" "dev") t2026 (Level.int 5) (Expiration.date t2020)
        St.init = Result.ok () s1 ∧
      getLogLevel (0 + 2) (singleVar "env" "dev") t2027 s1 =
        Result.ok (getDefaultLogLevel (singleVar "env" "dev")) s2 ∧
      s1.out = St.init.out ++ rs ∧
      { channel := Channel.warn, tag := WARN, message := msgExpired } ∈ rs :=
  ⟨by decide, by decide, by decide, by decide, by decide, by decide,
    setLogLevel_expired_refused (singleVar "env" "dev") St.init (by decide) (Level.int 5)
      (by decide) t2020 t2026 (by decide) (by decide) (by decide) (by decide) t2027 0 0⟩

theorem before_asymm (a b : Instant) (h : a.before b) : ¬ b.before a := by
  unfold Instant.before at *
  omega

/-- Within the years 0 to 9999, outside production and from a state the guard
does not apply to, an override whose expiration is after the current instant
is stored, and `getLogLevel()` returns it. -/
theorem setLogLevel_future_honoured (penv : ProcessEnv)
    (henv : getEnv penv = TEST ∨ getEnv penv = DEV) (s : St) (hs : ¬ finalized penv s)
    (L : Level) (hL : L ≠ Level.int (-1)) (t now : Instant) (ht : t.wellFormed)
    (hnow : now.wellFormed) (hera : 0 ≤ now.year ∧ now.year ≤ 9999)
    (hty : t.year ≤ 9999) (hfuture : now.before t) (later : Instant) (fuel fuel2 : Nat) :
    ∃ s1 s2,
      setLogLevel (fuel + 6) penv now L (Expiration.date t) s = Result.ok () s1 ∧
      s1.expiration = some (toISOString t) ∧
      getLogLevel (fuel2 + 2) penv later s1 = Result.ok L s2 := by
  have hp : isProduction penv = false := isProduction_of_not_prod penv henv
  have hL1 : L.strictEq (-1) = false := strictEq_of_ne L hL
  have he : Expiration.date t ≠ Expiration.invalid := by simp
  have hty0 : 0 ≤ t.year ∧ t.year ≤ 9999 := by
    unfold Instant.before at hfuture
    omega
  have hx : expired now (storeExpiration (Expiration.date t) s.enter) = false := by
    have h := strGt_toISOString now t hnow ht hera hty0
    have hn : ¬ strGt (toISOString now) (toISOString t) = true :=
      fun hg => before_asymm now t hfuture (h.1 hg)
    simpa [expired, storeExpiration] using hn
  rw [setLogLevel_eq]
  unfold setLogLevelFlat
  rw [if_neg hs, if_neg he]
  simp only [hL1, hp, hx, and_false, Bool.false_eq_true, if_false]
  rw [lazyInit_of_set penv _ hL1]
  have hne : ¬ (gate L MSG (msgOverride L)
      { storeExpiration (Expiration.date t) s.enter with logLevel := L }).expiration
      = none := by
    rw [gate_expiration]; simp [storeExpiration]
  rw [if_neg hne]
  have key : ∀ S : St, S.logLevel = L → S.expiration = some (toISOString t) →
      ∃ s1 s2, (Result.ok () S : Result Unit) = Result.ok () s1 ∧
        s1.expiration = some (toISOString t) ∧
        getLogLevel (fuel2 + 2) penv later s1 = Result.ok L s2 := by
    intro S hS hE
    refine ⟨S, S, rfl, hE, ?_⟩
    rw [getLogLevel_of_set _ _ _ _ (by rw [hS]; exact hL1), hS]
  refine key _ ?_ ?_
  · show (gate L MSG (msgOverride L) _).logLevel = L
    rw [gate_logLevel]
  · show (gate L MSG (msgOverride L) _).expiration = some (toISOString t)
    rw [gate_expiration]; rfl

/-- C8. The code at the failing input: in a DEV environment, at 2026-11-04,
`setLogLevel(5, t)` with `t` the first instant of the year 10000 is taken as
expired: it writes the `WARN` record of an expired override and stores the
default level 0, which the `getLogLevel()` that follows returns; and
`nonDefaultLogLevelExpired()` returns true on that stored expiration although
the current instant is before it. -/
theorem far_future_expiration_taken_as_expired :
    t10000.wellFormed ∧ t2026.before t10000 ∧
    toISOString t10000 = "+010000-01-01T00:00:00.000Z" ∧
    toISOString t2026 = "2026-11-04T00:00:00.000Z" ∧
    setLogLevel 6 (singleVar "env" "dev") t2026 (Level.int 5) (Expiration.date t10000)
        St.init =
      Result.ok ()
        { logLevel := Level.int 0, expiration := none,
          out := [{ channel := Channel.warn, tag := WARN, message := msgExpired }],
          setCalls := 2, depth := 0, maxDepth := 2 } ∧
    getLogLevel 2 (singleVar "env" "dev") t2026
        { logLevel := Level.int 0, expiration := none,
          out := [{ channel := Channel.warn, tag := WARN, message := msgExpired }],
          setCalls := 2, depth := 0, maxDepth := 2 } =
      Result.ok (Level.int 0)
        { logLevel := Level.int 0, expiration := none,
          out := [{ channel := Channel.warn, tag := WARN, message := msgExpired }],
          setCalls := 2, depth := 0, maxDepth := 2 } ∧
    (nonDefaultLogLevelExpired 5 (singleVar "env" "dev") t2026
        { St.init with logLevel := Level.int 5,
                       expiration := some (toISOString t10000) }).value = some true := by
  decide

/-! ## The environment -/

theorem getEnvLoop_eq (penv : ProcessEnv) (vars : List String) (env : String) :
    getEnvLoop penv vars env =
      match firstFilled penv (probes vars) with
      | some v => toUpperCase v
      | none => env := by
  induction vars with
  | nil => rfl
  | cons e rest ih =>
    simp only [getEnvLoop, probes, firstFilled]
    cases penv.filled e with
    | some v => rfl
    | none =>
      cases penv.filled (toUpperCase e) with
      | some v => rfl
      | none => simpa using ih

/-- The result of `getEnv` is `PROD`, `TEST` or `DEV`; and when the first name
it looks up that is filled has a value whose upper-cased form is none of the
three, it returns `PROD`, whatever `NODE_ENV` and the names looked up later
hold. The names are those of `envProbes`, which `stage` is not among. -/
theorem getEnv_fail_safe (penv : ProcessEnv) :
    (getEnv penv = PROD ∨ getEnv penv = TEST ∨ getEnv penv = DEV) ∧
    ∀ v, firstFilled penv envProbes = some v → toUpperCase v ∉ ENVIRONMENTS →
      getEnv penv = PROD := by
  constructor
  · unfold getEnv
    simp only
    generalize getEnvLoop penv envVars _ = r
    by_cases h : ENVIRONMENTS.contains r = true
    · rw [if_pos h]
      have hm : r ∈ ENVIRONMENTS := by simpa using h
      simpa [ENVIRONMENTS] using hm
    · rw [if_neg h]
      exact Or.inl rfl
  · intro v hv hnot
    unfold getEnv
    simp only
    rw [getEnvLoop_eq]
    have hv2 : firstFilled penv (probes envVars) = some v := hv
    rw [hv2]
    have hc : ¬ ENVIRONMENTS.contains (toUpperCase v) = true := by
      simpa using hnot
    exact if_neg hc

theorem getEnv_fail_safe_witness :
    firstFilled (twoVars "env" "staging" "NODE_ENV" "development") envProbes =
      some "staging" ∧
    toUpperCase "staging" ∉ ENVIRONMENTS ∧
    getEnv (twoVars "env" "staging" "NODE_ENV" "development") = PROD :=
  ⟨by decide, by decide,
    (getEnv_fail_safe (twoVars "env" "staging" "NODE_ENV" "development")).2 "staging"
      (by decide) (by decide)⟩

/-- C9. The code at the failing input: with `stage` set to `staging`, the
first filled name among the documented ones, and `NODE_ENV` set to
`development`, `getEnv` returns `DEV` and not `PROD`: it does not look up
`stage`, finds no name filled and falls back on `NODE_ENV`. The result is one
of the three environments, and the same value under `env`, `deployEnvironment`
or `environment` gives `PROD`. -/
theorem getEnv_unrecognized_stage_falls_back :
    firstFilled (twoVars "stage" "staging" "NODE_ENV" "development") documentedProbes =
      some "staging" ∧
    toUpperCase "staging" ∉ ENVIRONMENTS ∧
    firstFilled (twoVars "stage" "staging" "NODE_ENV" "development") envProbes = none ∧
    getEnv (twoVars "stage" "staging" "NODE_ENV" "development") = DEV ∧
    getEnv (twoVars "STAGE" "staging" "NODE_ENV" "development") = DEV ∧
    getEnv (twoVars "env" "staging" "NODE_ENV" "development") = PROD ∧
    getEnv (twoVars "deployEnvironment" "staging" "NODE_ENV" "development") = PROD ∧
    getEnv (twoVars "environment" "staging" "NODE_ENV" "development") = PROD := by
  decide

/-- C10. The code at the failing input: with `stage` the only name set, to
`test`, `getEnv` returns `PROD`, in either key form; the last element of
`possibleVars` is the one string `stage, deploy_environment`, and `getEnv`
looks up that name. The aliases `env`, `deployEnvironment` and `environment`
are honoured. -/
theorem getEnv_stage_not_read :
    getEnv (singleVar "stage" "test") = PROD ∧ getEnv (singleVar "STAGE" "test") = PROD ∧
    getEnv (singleVar "stage, deploy_environment" "test") = TEST ∧
    getEnv (singleVar "env" "test") = TEST ∧ getEnv (singleVar "ENV" "test") = TEST ∧
    getEnv (singleVar "deployEnvironment" "test") = TEST ∧
    getEnv (singleVar "DEPLOYENVIRONMENT" "test") = TEST ∧
    getEnv (singleVar "environment" "test") = TEST ∧
    getEnv (singleVar "ENVIRONMENT" "test") = TEST := by
  decide

/-! ## The environment fallback and the default level -/

theorem firstFilled_none (penv : ProcessEnv) (ks : List String)
    (h : ∀ k ∈ ks, penv.filled k = none) : firstFilled penv ks = none := by
  induction ks with
  | nil => rfl
  | cons k rest ih =>
    have hk : penv.filled k = none := h k (List.mem_cons_self k rest)
    simp only [firstFilled, hk]
    exact ih (fun x hx => h x (List.mem_cons_of_mem k hx))

/-- C11. When none of the names `getEnv` looks up is filled, `getEnv` returns
`DEV` if and only if `NODE_ENV` is exactly `development`, and `PROD`
otherwise, `NODE_ENV` unset included. -/
theorem getEnv_fallback (penv : ProcessEnv) (h : ∀ k ∈ envProbes, penv.filled k = none) :
    (getEnv penv = DEV ↔ penv "NODE_ENV" = some "development") ∧
    (penv "NODE_ENV" ≠ some "development" → getEnv penv = PROD) := by
  have hf : firstFilled penv (probes envVars) = none := firstFilled_none penv _ h
  unfold getEnv
  simp only
  rw [getEnvLoop_eq, hf]
  by_cases hn : penv "NODE_ENV" = some "development"
  · simp only [hn, if_true, ne_eq, not_true_eq_false, false_implies, and_true, iff_true]
    decide
  · simp only [hn, if_false, ne_eq, not_false_eq_true, true_implies, iff_false]
    decide

theorem getEnv_fallback_witness :
    (∀ k ∈ envProbes, (singleVar "NODE_ENV" "development").filled k = none) ∧
    (∀ k ∈ envProbes, (singleVar "NODE_ENV" "test").filled k = none) ∧
    getEnv (singleVar "NODE_ENV" "development") = DEV ∧
    getEnv (singleVar "NODE_ENV" "test") = PROD :=
  ⟨by decide, by decide,
    (getEnv_fallback (singleVar "NODE_ENV" "development") (by decide)).1.2 (by decide),
    (getEnv_fallback (singleVar "NODE_ENV" "test") (by decide)).2 (by decide)⟩

/-- C12. Whenever `getEnv` resolves to `PROD`, `getDefaultLogLevel` returns 0,
whatever the names `detailedLogs` and `logLevel` hold in either key form. -/
theorem getDefaultLogLevel_production (penv : ProcessEnv) (hprod : getEnv penv = PROD) :
    getDefaultLogLevel penv = Level.int 0 := by
  have hp : isProduction penv = true := isProduction_of_getEnv penv hprod
  unfold getDefaultLogLevel isNotProduction
  rw [hp]
  rfl

theorem getDefaultLogLevel_production_witness :
    getEnv (threeVars "env" "prod" "detailedLogs" "5" "LOGLEVEL" "4") = PROD ∧
    getDefaultLogLevel (threeVars "env" "prod" "detailedLogs" "5" "LOGLEVEL" "4") =
      Level.int 0 :=
  ⟨by decide,
    getDefaultLogLevel_production (threeVars "env" "prod" "detailedLogs" "5" "LOGLEVEL" "4")
      (by decide)⟩

theorem getDefaultLogLevelLoop_eq (penv : ProcessEnv) (vars : List String) (d : Level) :
    getDefaultLogLevelLoop penv vars d =
      match firstFilled penv (probes vars) with
      | some v => Number v
      | none => d := by
  induction vars with
  | nil => rfl
  | cons e rest ih =>
    simp only [getDefaultLogLevelLoop, probes, firstFilled]
    cases penv.filled e with
    | some v => rfl
    | none =>
      cases penv.filled (toUpperCase e) with
      | some v => rfl
      | none => simpa using ih

/-- Outside production the default level is `Number` of the first filled name
among `detailedLogs`, `DETAILEDLOGS`, `logLevel`, `LOGLEVEL`, whether or not
that text is numeric, and 0 when none is filled. -/
theorem getDefaultLogLevel_not_production (penv : ProcessEnv)
    (h : isProduction penv = false) :
    getDefaultLogLevel penv =
      match firstFilled penv levelProbes with
      | some v => Number v
      | none => Level.int 0 := by
  unfold getDefaultLogLevel isNotProduction
  rw [h]
  exact getDefaultLogLevelLoop_eq penv levelVars (Level.int 0)

/-- C13. The code at the failing input: in a DEV environment with
`detailedLogs` set to `abc` and `logLevel` set to `3`, `getDefaultLogLevel`
returns `NaN`: the non-numeric `detailedLogs` is not passed over. With
`detailedLogs` unset the same `logLevel` gives 3, and with numeric text in
`detailedLogs` that value is returned. -/
theorem getDefaultLogLevel_non_numeric_taken :
    getDefaultLogLevel (threeVars "env" "dev" "detailedLogs" "abc" "logLevel" "3") =
      Level.nan ∧
    getDefaultLogLevel (twoVars "env" "dev" "detailedLogs" "abc") = Level.nan ∧
    getDefaultLogLevel (twoVars "env" "dev" "logLevel" "3") = Level.int 3 ∧
    getDefaultLogLevel (threeVars "env" "dev" "detailedLogs" "5" "logLevel" "3") =
      Level.int 5 := by
  decide

/-! ## The gate -/

theorem lazyInit_of_getLogLevel (fuel : Nat) (penv : ProcessEnv) (now : Instant) (s s0 : St)
    (l : Level) (h : getLogLevel (fuel + 2) penv now s = Result.ok l s0) :
    lazyInit penv s = s0 ∧ s0.logLevel = l := by
  rw [getLogLevel_eq] at h
  injection h with h1 h2
  subst h2
  exact ⟨rfl, h1⟩

theorem writeLog_of_getLogLevel (fuel : Nat) (penv : ProcessEnv) (now : Instant)
    (tag message : String) (s s0 : St) (l : Level)
    (h : getLogLevel (fuel + 2) penv now s = Result.ok l s0) :
    writeLog (fuel + 3) penv now tag message s =
      Result.ok true (gate l (toUpperCase tag) message s0) := by
  obtain ⟨h1, h2⟩ := lazyInit_of_getLogLevel fuel penv now s s0 l h
  rw [writeLog_eq, h1, h2]

/-- C14. When the current level, the one `getLogLevel()` returns, is the
integer `n`, `writeLog` returns and adds to the console: for the tag `ERROR`
one record on the error channel and for `WARN` one on the warn channel,
whatever `n`; for `MSG` one record on the info channel when `n ≥ 1` and
nothing otherwise; for `DIAG` one on the debug channel when `n ≥ 3` and
nothing otherwise; for `DEBUG` one on the debug channel when `n ≥ 5` and
nothing otherwise. -/
theorem writeLog_gating_table (fuel : Nat) (penv : ProcessEnv) (now : Instant)
    (message : String) (s s0 : St) (n : Int)
    (h : getLogLevel (fuel + 2) penv now s = Result.ok (Level.int n) s0) :
    (∃ s1, writeLog (fuel + 3) penv now ERROR message s = Result.ok true s1 ∧
      s1.out = s0.out ++ [{ channel := Channel.error, tag := ERROR, message := message }]) ∧
    (∃ s1, writeLog (fuel + 3) penv now WARN message s = Result.ok true s1 ∧
      s1.out = s0.out ++ [{ channel := Channel.warn, tag := WARN, message := message }]) ∧
    (∃ s1, writeLog (fuel + 3) penv now MSG message s = Result.ok true s1 ∧
      s1.out = if 1 ≤ n then
          s0.out ++ [{ channel := Channel.info, tag := MSG, message := message }]
        else s0.out) ∧
    (∃ s1, writeLog (fuel + 3) penv now DIAG message s = Result.ok true s1 ∧
      s1.out = if 3 ≤ n then
          s0.out ++ [{ channel := Channel.debug, tag := DIAG, message := message }]
        else s0.out) ∧
    (∃ s1, writeLog (fuel + 3) penv now DEBUG message s = Result.ok true s1 ∧
      s1.out = if 5 ≤ n then
          s0.out ++ [{ channel := Channel.debug, tag := DEBUG, message := message }]
        else s0.out) := by
  have hE : toUpperCase ERROR = ERROR := by decide
  have hW : toUpperCase WARN = WARN := by decide
  have hM : toUpperCase MSG = MSG := by decide
  have hD : toUpperCase DIAG = DIAG := by decide
  have hB : toUpperCase DEBUG = DEBUG := by decide
  have h1 : WARN ≠ ERROR := by decide
  have h2 : MSG ≠ ERROR := by decide
  have h3 : MSG ≠ WARN := by decide
  have h4 : DIAG ≠ ERROR := by decide
  have h5 : DIAG ≠ WARN := by decide
  have h6 : DIAG ≠ MSG := by decide
  have h7 : DEBUG ≠ ERROR := by decide
  have h8 : DEBUG ≠ WARN := by decide
  have h9 : DEBUG ≠ MSG := by decide
  have h10 : DEBUG ≠ DIAG := by decide
  simp only [writeLog_of_getLogLevel fuel penv now _ message s s0 _ h, hE, hW, hM, hD, hB]
  refine ⟨⟨_, rfl, ?_⟩, ⟨_, rfl, ?_⟩, ⟨_, rfl, ?_⟩, ⟨_, rfl, ?_⟩, ⟨_, rfl, ?_⟩⟩
  · simp [gate, baseLog]
  · simp [gate, baseLog, h1]
  · simp only [gate, h2, h3, Level.ge, if_false, decide_eq_true_eq]
    split_ifs <;> rfl
  · simp only [gate, h4, h5, h6, Level.ge, if_false, decide_eq_true_eq]
    split_ifs <;> rfl
  · simp only [gate, h7, h8, h9, h10, Level.ge, if_false, decide_eq_true_eq]
    split_ifs <;> rfl

theorem writeLog_gating_table_witness :
    getLogLevel (0 + 2) (twoVars "env" "dev" "logLevel" "4") t2026 St.init =
      Result.ok (Level.int 4)
        { St.init with logLevel := Level.int 4, setCalls := 1, maxDepth := 1 } ∧
    (∃ s1, writeLog (0 + 3) (twoVars "env" "dev" "logLevel" "4") t2026 ERROR "x" St.init =
        Result.ok true s1 ∧
      s1.out = [] ++ [{ channel := Channel.error, tag := ERROR, message := "x" }]) ∧
    (∃ s1, writeLog (0 + 3) (twoVars "env" "dev" "logLevel" "4") t2026 DIAG "x" St.init =
        Result.ok true s1 ∧
      s1.out = if (3 : Int) ≤ 4 then
          [] ++ [{ channel := Channel.debug, tag := DIAG, message := "x" }]
        else []) ∧
    (∃ s1, writeLog (0 + 3) (twoVars "env" "dev" "logLevel" "4") t2026 DEBUG "x" St.init =
        Result.ok true s1 ∧
      s1.out = if (5 : Int) ≤ 4 then
          [] ++ [{ channel := Channel.debug, tag := DEBUG, message := "x" }]
        else []) :=
  ⟨by decide,
   (writeLog_gating_table 0 (twoVars "env" "dev" "logLevel" "4") t2026 "x" St.init
      { St.init with logLevel := Level.int 4, setCalls := 1, maxDepth := 1 } 4
      (by decide)).1,
   (writeLog_gating_table 0 (twoVars "env" "dev" "logLevel" "4") t2026 "x" St.init
      { St.init with logLevel := Level.int 4, setCalls := 1, maxDepth := 1 } 4
      (by decide)).2.2.2.1,
   (writeLog_gating_table 0 (twoVars "env" "dev" "logLevel" "4") t2026 "x" St.init
      { St.init with logLevel := Level.int 4, setCalls := 1, maxDepth := 1 } 4
      (by decide)).2.2.2.2⟩

/-- C15. The code at the failing input: in production, at level 0,
`log("done", "DEBUG")` writes nothing, and neither does the tag `debug`,
`diag` or `msg`: `log` hands the tag of the caller to `writeLog`, whose
`switch` gates it. With the tag left out (`LOG`) one record is written on the
log channel. -/
theorem log_with_gated_tag_suppressed :
    log 3 (singleVar "env" "prod") t2026 "done" "DEBUG" St.init =
      Result.ok true { St.init with logLevel := Level.int 0, setCalls := 1, maxDepth := 1 } ∧
    log 3 (singleVar "env" "prod") t2026 "done" "debug" St.init =
      Result.ok true { St.init with logLevel := Level.int 0, setCalls := 1, maxDepth := 1 } ∧
    log 3 (singleVar "env" "prod") t2026 "done" "diag" St.init =
      Result.ok true { St.init with logLevel := Level.int 0, setCalls := 1, maxDepth := 1 } ∧
    log 3 (singleVar "env" "prod") t2026 "done" "msg" St.init =
      Result.ok true { St.init with logLevel := Level.int 0, setCalls := 1, maxDepth := 1 } ∧
    log 3 (singleVar "env" "prod") t2026 "done" LOG St.init =
      Result.ok true
        { St.init with logLevel := Level.int 0, setCalls := 1, maxDepth := 1,
                       out := [{ channel := Channel.log, tag := LOG, message := "done" }] } := by
  decide

/-- Whatever the level, `log` writes exactly one record when the upper-cased
tag is none of `MSG`, `DIAG`, `DEBUG`. -/
theorem log_one_record (fuel : Nat) (penv : ProcessEnv) (now : Instant)
    (message tag : String) (s : St) (h1 : toUpperCase tag ≠ MSG)
    (h2 : toUpperCase tag ≠ DIAG) (h3 : toUpperCase tag ≠ DEBUG) :
    ∃ s1 r, log (fuel + 3) penv now message tag s = Result.ok true s1 ∧
      s1.out = s.out ++ [r] ∧ r.tag = toUpperCase tag ∧ r.message = message := by
  unfold log
  rw [writeLog_eq]
  unfold gate
  simp only [h1, h2, h3, if_false]
  split_ifs
  · exact ⟨_, ⟨Channel.error, toUpperCase tag, message⟩, rfl,
      by simp [baseLog, lazyInit_out], rfl, rfl⟩
  · exact ⟨_, ⟨Channel.warn, toUpperCase tag, message⟩, rfl,
      by simp [baseLog, lazyInit_out], rfl, rfl⟩
  · exact ⟨_, ⟨Channel.log, toUpperCase tag, message⟩, rfl,
      by simp [baseLog, lazyInit_out], rfl, rfl⟩

/-- C20. For every tag and every two integer levels `n ≤ m`: when `writeLog`
writes a record at the current level `n`, it writes the same record, on the
same channel, at the current level `m`. -/
theorem writeLog_gating_monotone (fuel : Nat) (penv : ProcessEnv) (now : Instant)
    (tag message : String) (s t s0 t0 s1 : St) (n m : Int) (hnm : n ≤ m)
    (hs : getLogLevel (fuel + 2) penv now s = Result.ok (Level.int n) s0)
    (ht : getLogLevel (fuel + 2) penv now t = Result.ok (Level.int m) t0)
    (r : Record) (h1 : writeLog (fuel + 3) penv now tag message s = Result.ok true s1)
    (hr : s1.out = s0.out ++ [r]) :
    ∃ t1, writeLog (fuel + 3) penv now tag message t = Result.ok true t1 ∧
      t1.out = t0.out ++ [r] := by
  rw [writeLog_of_getLogLevel fuel penv now tag message s s0 _ hs] at h1
  rw [writeLog_of_getLogLevel fuel penv now tag message t t0 _ ht]
  injection h1 with _ h1
  subst h1
  refine ⟨_, rfl, ?_⟩
  unfold gate at hr ⊢
  simp only [Level.ge, decide_eq_true_eq] at hr ⊢
  split_ifs at hr ⊢ <;>
    first
    | (simp only [baseLog, List.append_cancel_left_eq, List.cons.injEq, and_true] at hr ⊢
       exact hr)
    | (exfalso; omega)
    | (exfalso; simp at hr)

theorem writeLog_gating_monotone_witness :
    (3 : Int) ≤ 5 ∧
    ∃ t1, writeLog (0 + 3) (singleVar "env" "dev") t2026 DIAG "x"
        { St.init with logLevel := Level.int 5 } = Result.ok true t1 ∧
      t1.out = ({ St.init with logLevel := Level.int 5 } : St).out ++
        [{ channel := Channel.debug, tag := DIAG, message := "x" }] :=
  ⟨by decide,
    writeLog_gating_monotone 0 (singleVar "env" "dev") t2026 DIAG "x"
      { St.init with logLevel := Level.int 3 } { St.init with logLevel := Level.int 5 }
      { St.init with logLevel := Level.int 3 } { St.init with logLevel := Level.int 5 }
      (baseLog Channel.debug DIAG "x" { St.init with logLevel := Level.int 3 })
      3 5 (by decide) (by decide) (by decide)
      { channel := Channel.debug, tag := DIAG, message := "x" } (by decide) (by decide)⟩

/-! ## Lazy initialization -/

theorem lazyInit_of_unset (penv : ProcessEnv) (s : St) (h : s.logLevel = Level.int (-1)) :
    lazyInit penv s =
      { s.enter with expiration := none, logLevel := getDefaultLogLevel penv }.leave := by
  have h1 : s.logLevel.strictEq (-1) = true := by rw [h]; rfl
  simp [lazyInit, h1]

/-- C16, as stated, fails: in a DEV environment with `logLevel` set to `-1` the
default level is `-1`, the stored level stays `-1`, and the second
`getLogLevel()` calls `setLogLevel()` again. -/
theorem getLogLevel_reinitializes_at_minus_one :
    getLogLevel 2 (twoVars "env" "dev" "logLevel" "-1") t2026 St.init =
      Result.ok (Level.int (-1)) { St.init with setCalls := 1, maxDepth := 1 } ∧
    getLogLevel 2 (twoVars "env" "dev" "logLevel" "-1") t2027
        { St.init with setCalls := 1, maxDepth := 1 } =
      Result.ok (Level.int (-1)) { St.init with setCalls := 2, maxDepth := 1 } := by
  decide

/-- C16, amended. From a stored level of `-1`, two calls of `getLogLevel()`
with no `setLogLevel` between them both return the default level, and the
first one calls `setLogLevel()` once. When the default level is not `-1` the
second call leaves the state as it is; when it is `-1` the second call calls
`setLogLevel()` once more. -/
theorem getLogLevel_twice (penv : ProcessEnv) (s : St) (hs : s.logLevel = Level.int (-1))
    (now later : Instant) (fuel fuel2 : Nat) :
    ∃ s1 s2,
      getLogLevel (fuel + 2) penv now s = Result.ok (getDefaultLogLevel penv) s1 ∧
      getLogLevel (fuel2 + 2) penv later s1 = Result.ok (getDefaultLogLevel penv) s2 ∧
      s1.setCalls = s.setCalls + 1 ∧
      ((getDefaultLogLevel penv).strictEq (-1) = false → s2 = s1) ∧
      ((getDefaultLogLevel penv).strictEq (-1) = true → s2.setCalls = s.setCalls + 2) := by
  have h1 := lazyInit_of_unset penv s hs
  refine ⟨lazyInit penv s, lazyInit penv (lazyInit penv s), ?_, ?_, ?_, ?_, ?_⟩
  · rw [getLogLevel_eq, h1]; rfl
  · rw [getLogLevel_eq, lazyInit_logLevel]
    have : (lazyInit penv s).logLevel = getDefaultLogLevel penv := by rw [h1]; rfl
    rw [this]
    simp
  · rw [h1]; rfl
  · intro hd
    apply lazyInit_of_set
    rw [h1]; exact hd
  · intro hd
    have h2 : (lazyInit penv s).logLevel.strictEq (-1) = true := by rw [h1]; exact hd
    rw [h1] at h2 ⊢
    simp only [lazyInit, h2, if_true]
    rfl

theorem getLogLevel_twice_witness :
    St.init.logLevel = Level.int (-1) ∧
    ∃ s1 s2,
      getLogLevel (0 + 2) (twoVars "env" "dev" "logLevel" "3") t2026 St.init =
        Result.ok (getDefaultLogLevel (twoVars "env" "dev" "logLevel" "3")) s1 ∧
      getLogLevel (0 + 2) (twoVars "env" "dev" "logLevel" "3") t2027 s1 =
        Result.ok (getDefaultLogLevel (twoVars "env" "dev" "logLevel" "3")) s2 ∧
      s1.setCalls = St.init.setCalls + 1 ∧
      ((getDefaultLogLevel (twoVars "env" "dev" "logLevel" "3")).strictEq (-1) = false →
        s2 = s1) ∧
      ((getDefaultLogLevel (twoVars "env" "dev" "logLevel" "3")).strictEq (-1) = true →
        s2.setCalls = St.init.setCalls + 2) :=
  ⟨rfl, getLogLevel_twice (twoVars "env" "dev" "logLevel" "3") St.init rfl t2026 t2027 0 0⟩

/-- C18. The code at the failing input: in production, from the initial
state, `setLogLevel(5, t)` with `t` the first instant of 2999 returns and
leaves `getExpiration()` at `-1`: the warning of the rejected level reads the
level while it is still `-1`, and the nested `setLogLevel()` resets the
expiration. The same happens outside production with an expiration in the
past. From a stored level of 0 the same call leaves the ISO string of `t`, and
without an expiration `getExpiration()` is `-1`. -/
theorem setLogLevel_expiration_reset_by_nested_call :
    (setLogLevel 6 (singleVar "env" "prod") t2026 (Level.int 5) (Expiration.date t2999)
      St.init).value = some () ∧
    getExpiration ((setLogLevel 6 (singleVar "env" "prod") t2026 (Level.int 5)
      (Expiration.date t2999) St.init).stateOr St.init) = none ∧
    getExpiration ((setLogLevel 6 (singleVar "env" "dev") t2026 (Level.int 5)
      (Expiration.date t2020) St.init).stateOr St.init) = none ∧
    getExpiration ((setLogLevel 6 (singleVar "env" "prod") t2026 (Level.int 5)
      (Expiration.date t2999) { St.init with logLevel := Level.int 0 }).stateOr St.init) =
        some "2999-01-01T00:00:00.000Z" ∧
    getExpiration ((setLogLevel 6 (singleVar "env" "dev") t2026 (Level.int 5)
      (Expiration.date t2999) St.init).stateOr St.init) = some "2999-01-01T00:00:00.000Z" ∧
    getExpiration ((setLogLevel 6 (singleVar "env" "dev") t2026 (Level.int 5)
      Expiration.absent St.init).stateOr St.init) = none := by
  decide

/-! ## Termination -/

theorem lazyInit_depth (penv : ProcessEnv) (s : St) : (lazyInit penv s).depth = s.depth := by
  unfold lazyInit; split
  · simp [St.leave, St.enter]
  · rfl

theorem lazyInit_maxDepth (penv : ProcessEnv) (s : St) :
    (lazyInit penv s).maxDepth ≤ max s.maxDepth (s.depth + 1) := by
  unfold lazyInit; split
  · simp [St.leave, St.enter]
  · exact le_max_left _ _

theorem lazyInit_setCalls (penv : ProcessEnv) (s : St) :
    (lazyInit penv s).setCalls ≤ s.setCalls + 1 := by
  unfold lazyInit; split
  · simp [St.leave, St.enter]
  · exact Nat.le_succ _

theorem gate_frames (lvl : Level) (tag message : String) (s : St) :
    (gate lvl tag message s).depth = s.depth ∧
    (gate lvl tag message s).maxDepth = s.maxDepth ∧
    (gate lvl tag message s).setCalls = s.setCalls := by
  unfold gate; split_ifs <;> exact ⟨rfl, rfl, rfl⟩

theorem frames_enter (s : St) : framesWithin s 1 s.enter := by
  refine ⟨rfl, ?_, le_refl _⟩
  show max s.maxDepth (s.depth + 1) ≤ max s.maxDepth (s.depth + 2)
  omega

theorem frames_baseLog (s x : St) (c : Nat) (channel : Channel) (tag message : String)
    (h : framesWithin s c x) : framesWithin s c (baseLog channel tag message x) := h

theorem frames_gate (s x : St) (c : Nat) (lvl : Level) (tag message : String)
    (h : framesWithin s c x) : framesWithin s c (gate lvl tag message x) := by
  obtain ⟨g1, g2, g3⟩ := gate_frames lvl tag message x
  unfold framesWithin
  rw [g1, g2, g3]
  exact h

theorem frames_storeExpiration (s x : St) (c : Nat) (expiration : Expiration)
    (h : framesWithin s c x) : framesWithin s c (storeExpiration expiration x) := by
  cases expiration <;> exact h

theorem frames_logLevel (s x : St) (c : Nat) (l : Level) (h : framesWithin s c x) :
    framesWithin s c { x with logLevel := l } := h

theorem frames_lazyInit (penv : ProcessEnv) (s x : St) (h : framesWithin s 1 x) :
    framesWithin s 2 (lazyInit penv x) := by
  obtain ⟨h1, h2, h3⟩ := h
  have a := lazyInit_depth penv x
  have b := lazyInit_maxDepth penv x
  have c := lazyInit_setCalls penv x
  unfold framesWithin
  omega

theorem frames_lazyInit_of_set (penv : ProcessEnv) (s x : St) (c : Nat)
    (h : framesWithin s c x) (hl : x.logLevel.strictEq (-1) = false) :
    framesWithin s c (lazyInit penv x) := by
  rw [lazyInit_of_set penv x hl]
  exact h

theorem frames_leave (s x : St) (c : Nat) (h : framesWithin s c x) (hc : c ≤ 2) :
    x.leave.depth = s.depth ∧ x.leave.maxDepth ≤ max s.maxDepth (s.depth + 2) ∧
    x.leave.setCalls ≤ s.setCalls + 2 := by
  obtain ⟨h1, h2, h3⟩ := h
  refine ⟨?_, h2, ?_⟩
  · show x.depth - 1 = s.depth
    omega
  · show x.setCalls ≤ s.setCalls + 2
    omega

/-- The frames of `setLogLevel` that are open during one call: the call
itself and at most one nested call. -/
theorem setLogLevelFlat_frames (penv : ProcessEnv) (now : Instant) (logLevel : Level)
    (expiration : Expiration) (s : St) (he : expiration ≠ Expiration.invalid) :
    ∃ s1, setLogLevelFlat penv now logLevel expiration s = Result.ok () s1 ∧
      s1.depth = s.depth ∧ s1.maxDepth ≤ max s.maxDepth (s.depth + 2) ∧
      s1.setCalls ≤ s.setCalls + 2 := by
  have f1 : framesWithin s 1 (storeExpiration expiration s.enter) :=
    frames_storeExpiration s _ 1 expiration (frames_enter s)
  unfold setLogLevelFlat
  rw [if_neg he]
  dsimp only
  split_ifs with h1 h2 h3 h4 h5
  · exact ⟨_, rfl, frames_leave s _ 1 (frames_baseLog s _ 1 _ _ _ (frames_enter s))
      (by omega)⟩
  · exact ⟨_, rfl, frames_leave s _ 1 (frames_logLevel s _ 1 _ f1) (by omega)⟩
  · exact ⟨_, rfl, frames_leave s _ 2
      (frames_logLevel s _ 2 _ (frames_baseLog s _ 2 _ _ _ (frames_lazyInit penv s _ f1)))
      (le_refl _)⟩
  · exact ⟨_, rfl, frames_leave s _ 2
      (frames_logLevel s _ 2 _ (frames_baseLog s _ 2 _ _ _ (frames_lazyInit penv s _ f1)))
      (le_refl _)⟩
  · have hl : logLevel.strictEq (-1) = false := by simpa using h2
    have f2 : framesWithin s 1
        (lazyInit penv { storeExpiration expiration s.enter with logLevel := logLevel }) :=
      frames_lazyInit_of_set penv s _ 1 (frames_logLevel s _ 1 logLevel f1) hl
    exact ⟨_, rfl, frames_leave s _ 2
      (frames_baseLog s _ 2 _ _ _ (frames_lazyInit penv s _ (frames_gate s _ 1 _ _ _ f2)))
      (le_refl _)⟩
  · have hl : logLevel.strictEq (-1) = false := by simpa using h2
    have f2 : framesWithin s 1
        (lazyInit penv { storeExpiration expiration s.enter with logLevel := logLevel }) :=
      frames_lazyInit_of_set penv s _ 1 (frames_logLevel s _ 1 logLevel f1) hl
    exact ⟨_, rfl, frames_leave s _ 1 (frames_gate s _ 1 _ _ _ f2) (by omega)⟩

/-- C19. With fuel 6 or more `setLogLevel` returns for every state,
environment, level and expiration that is absent or a valid date, and with
fuel 2 or more `getLogLevel` returns, the default level `-1` included; every
call of `setLogLevel` has returned by then, and while the call runs at most
one nested `setLogLevel` is open inside it: the nested call starts none. -/
theorem setLogLevel_getLogLevel_terminate (penv : ProcessEnv) (now : Instant)
    (logLevel : Level) (expiration : Expiration) (s : St)
    (he : expiration ≠ Expiration.invalid) (fuel fuel2 : Nat) :
    (∃ s1, setLogLevel (fuel + 6) penv now logLevel expiration s = Result.ok () s1 ∧
      s1.depth = s.depth ∧ s1.maxDepth ≤ max s.maxDepth (s.depth + 2) ∧
      s1.setCalls ≤ s.setCalls + 2) ∧
    (∃ l s1, getLogLevel (fuel2 + 2) penv now s = Result.ok l s1 ∧
      s1.depth = s.depth ∧ s1.maxDepth ≤ max s.maxDepth (s.depth + 1) ∧
      s1.setCalls ≤ s.setCalls + 1) := by
  constructor
  · rw [setLogLevel_eq]
    exact setLogLevelFlat_frames penv now logLevel expiration s he
  · exact ⟨_, _, getLogLevel_eq _ _ _ _, lazyInit_depth penv s, lazyInit_maxDepth penv s,
      lazyInit_setCalls penv s⟩

theorem setLogLevel_getLogLevel_terminate_witness :
    Expiration.date t2020 ≠ Expiration.invalid ∧
    (∃ s1, setLogLevel (0 + 6) (twoVars "env" "dev" "logLevel" "-1") t2026 (Level.int 5)
        (Expiration.date t2020) St.init = Result.ok () s1 ∧
      s1.depth = St.init.depth ∧ s1.maxDepth ≤ max St.init.maxDepth (St.init.depth + 2) ∧
      s1.setCalls ≤ St.init.setCalls + 2) ∧
    (∃ l s1, getLogLevel (0 + 2) (twoVars "env" "dev" "logLevel" "-1") t2026 St.init =
        Result.ok l s1 ∧
      s1.depth = St.init.depth ∧ s1.maxDepth ≤ max St.init.maxDepth (St.init.depth + 1) ∧
      s1.setCalls ≤ St.init.setCalls + 1) :=
  ⟨by decide,
    setLogLevel_getLogLevel_terminate (twoVars "env" "dev" "logLevel" "-1") t2026
      (Level.int 5) (Expiration.date t2020) St.init (by decide) 0 0⟩

/-! ## Decimal text and `Number` -/

/-- A character of a list that `natTextAux` extends is a digit or in `acc`. -/
theorem natTextAux_mem (fuel n : Nat) (acc : List Char) (c : Char)
    (h : c ∈ natTextAux fuel n acc) : (48 ≤ c.toNat ∧ c.toNat ≤ 57) ∨ c ∈ acc := by
  induction fuel generalizing n acc with
  | zero => exact Or.inr h
  | succ f ih =>
    have hd : 48 ≤ (digit n).toNat ∧ (digit n).toNat ≤ 57 := by
      rw [digit_toNat]; omega
    rw [natTextAux] at h
    split_ifs at h
    · rcases List.mem_cons.1 h with h | h
      · exact Or.inl (h ▸ hd)
      · exact Or.inr h
    · rcases ih _ _ h with h | h
      · exact Or.inl h
      · rcases List.mem_cons.1 h with h | h
        · exact Or.inl (h ▸ hd)
        · exact Or.inr h

theorem natText_mem (n : Nat) (c : Char) (h : c ∈ natText n) :
    48 ≤ c.toNat ∧ c.toNat ≤ 57 := by
  rcases natTextAux_mem _ _ _ _ h with h | h
  · exact h
  · simp at h

theorem natTextAux_ne_nil (fuel n : Nat) (acc : List Char) (h : acc ≠ [] ∨ 0 < fuel) :
    natTextAux fuel n acc ≠ [] := by
  induction fuel generalizing n acc with
  | zero =>
    rcases h with h | h
    · exact h
    · omega
  | succ f ih =>
    rw [natTextAux]
    split_ifs
    · simp
    · exact ih _ _ (Or.inl (by simp))

theorem natText_ne_nil (n : Nat) : natText n ≠ [] :=
  natTextAux_ne_nil _ _ _ (Or.inr (Nat.succ_pos n))

theorem digitsValue_digit (d acc : Nat) (cs : List Char) :
    digitsValue (digit d :: cs) acc = digitsValue cs (acc * 10 + d % 10) := by
  have h : 48 ≤ (digit d).toNat ∧ (digit d).toNat ≤ 57 := by rw [digit_toNat]; omega
  rw [digitsValue, if_pos h, digit_toNat]
  congr 1
  omega

theorem digitsValue_natTextAux (n : Nat) :
    ∀ fuel acc, n < fuel → digitsValue (natTextAux fuel n acc) 0 = digitsValue acc n := by
  induction n using Nat.strong_induction_on with
  | _ n ih =>
    intro fuel acc hf
    cases fuel with
    | zero => omega
    | succ f =>
      rw [natTextAux]
      split_ifs with h10
      · rw [digitsValue_digit]
        congr 1
        omega
      · rw [ih (n / 10) (by omega) f _ (by omega), digitsValue_digit]
        congr 1
        omega

theorem unsignedValue_natText (n : Nat) : unsignedValue (natText n) = some n := by
  have hne := natText_ne_nil n
  have hv : digitsValue (natText n) 0 = some n := by
    unfold natText
    rw [digitsValue_natTextAux n (n + 1) [] (Nat.lt_succ_self n)]
    rfl
  cases hcs : natText n with
  | nil => exact absurd hcs hne
  | cons c cs =>
    rw [hcs] at hv
    exact hv

theorem shiftFor_small (fuel n : Nat) (h : n < 2 ^ 53) : shiftFor fuel n = 0 := by
  cases fuel with
  | zero => rfl
  | succ f => rw [shiftFor, if_pos h]

/-- A natural number up to `2 ^ 53` is a double. -/
theorem roundToDouble_exact (n : Nat) (h : n ≤ 2 ^ 53) : roundToDouble n = some n := by
  rcases Nat.lt_or_ge n (2 ^ 53) with hlt | hge
  · unfold roundToDouble
    simp [shiftFor_small n n hlt, Nat.mod_one]
  · have hn : n = 2 ^ 53 := Nat.le_antisymm h hge
    subst hn
    decide

theorem dropWhile_isSpace (cs : List Char) (h : ∀ c ∈ cs, isSpace c = false) :
    cs.dropWhile isSpace = cs := by
  cases cs with
  | nil => rfl
  | cons c rest =>
    rw [List.dropWhile_cons, h c (List.mem_cons_self c rest)]
    simp

theorem trim_eq (cs : List Char) (h : ∀ c ∈ cs, isSpace c = false) :
    ((cs.dropWhile isSpace).reverse.dropWhile isSpace).reverse = cs := by
  rw [dropWhile_isSpace cs h, dropWhile_isSpace cs.reverse (fun c hc => h c (by simpa using hc)),
    List.reverse_reverse]

theorem isSpace_of_digit (c : Char) (h : 48 ≤ c.toNat ∧ c.toNat ≤ 57) : isSpace c = false := by
  unfold isSpace
  simp only [Bool.or_eq_false_iff, Bool.and_eq_false_iff, decide_eq_false_iff_not]
  omega

theorem unsignedNumber_natText (negative : Bool) (m : Nat) (h : m ≤ 2 ^ 53) :
    unsignedNumber negative (natText m) =
      Level.int (if negative = true then -(m : Int) else (m : Int)) := by
  have hI : natText m ≠ "Infinity".data := by
    intro heq
    have hmem : 'I' ∈ natText m := by rw [heq]; decide
    have := natText_mem m 'I' hmem
    revert this
    decide
  unfold unsignedNumber
  rw [if_neg hI]
  simp only [unsignedValue_natText, roundToDouble_exact m h]

/-- On the decimal text of an integer of magnitude up to `2 ^ 53`, `Number`
gives that integer. -/
theorem Number_decimalText (n : Int) (h : n.natAbs ≤ 2 ^ 53) :
    Number (decimalText n) = Level.int n := by
  have hne := natText_ne_nil n.natAbs
  have hdig := natText_mem n.natAbs
  unfold Number decimalText
  by_cases hneg : n < 0
  · have hsp : ∀ c ∈ '-' :: natText n.natAbs, isSpace c = false := by
      intro c hc
      rcases List.mem_cons.1 hc with hc | hc
      · rw [hc]; decide
      · exact isSpace_of_digit c (hdig c hc)
    simp only [if_pos hneg]
    rw [trim_eq _ hsp]
    simp only
    rw [unsignedNumber_natText true _ h]
    simp only [if_true]
    congr 1
    omega
  · have hsp : ∀ c ∈ natText n.natAbs, isSpace c = false :=
      fun c hc => isSpace_of_digit c (hdig c hc)
    simp only [if_neg hneg]
    rw [trim_eq _ hsp]
    have hres : unsignedNumber false (natText n.natAbs) = Level.int n := by
      rw [unsignedNumber_natText false _ h]
      simp only [Bool.false_eq_true, if_false]
      congr 1
      omega
    split
    · rename_i heq
      exact absurd heq hne
    · rename_i ds heq
      have hm : '-' ∈ natText n.natAbs := by rw [heq]; exact List.mem_cons_self _ _
      exact absurd (hdig _ hm) (by decide)
    · rename_i ds heq
      have hm : '+' ∈ natText n.natAbs := by rw [heq]; exact List.mem_cons_self _ _
      exact absurd (hdig _ hm) (by decide)
    · exact hres

/-! ## The default scenario -/

theorem getEnv_of_no_probe (penv : ProcessEnv) (h : ∀ k ∈ envProbes, penv.filled k = none)
    (hn : penv "NODE_ENV" = some "development") : getEnv penv = DEV := by
  have hf : firstFilled penv (probes envVars) = none := firstFilled_none penv _ h
  unfold getEnv
  simp only
  rw [getEnvLoop_eq, hf]
  simp only [hn, if_true]
  decide

theorem decimalText_ne_empty (n : Int) : decimalText n ≠ "" := by
  have hne := natText_ne_nil n.natAbs
  intro h
  have hd : (decimalText n).data = [] := by rw [h]
  unfold decimalText at hd
  by_cases hneg : n < 0
  · rw [if_pos hneg] at hd
    exact List.cons_ne_nil _ _ hd
  · rw [if_neg hneg] at hd
    exact hne hd

theorem gate_diag (n : Int) (message : String) (s : St) :
    gate (Level.int n) DIAG message s =
      if 3 ≤ n then baseLog Channel.debug DIAG message s else s := by
  have h4 : DIAG ≠ ERROR := by decide
  have h5 : DIAG ≠ WARN := by decide
  have h6 : DIAG ≠ MSG := by decide
  simp [gate, h4, h5, h6, Level.ge]

theorem gate_debug (n : Int) (message : String) (s : St) :
    gate (Level.int n) DEBUG message s =
      if 5 ≤ n then baseLog Channel.debug DEBUG message s else s := by
  have h7 : DEBUG ≠ ERROR := by decide
  have h8 : DEBUG ≠ WARN := by decide
  have h9 : DEBUG ≠ MSG := by decide
  have h10 : DEBUG ≠ DIAG := by decide
  simp [gate, h7, h8, h9, h10, Level.ge]

/-- C17, as stated, fails: with `NODE_ENV` set to `development` and `logLevel`
set to the decimal text of 9007199254740993, which is `2 ^ 53 + 1`,
`getLogLevel()` returns 9007199254740992, the nearest double. -/
theorem getLogLevel_rounds_large_level :
    decimalText 9007199254740993 = "9007199254740993" ∧
    (9007199254740993 : Int) ≠ -1 ∧
    getEnv (twoVars "NODE_ENV" "development" "logLevel" "9007199254740993") = DEV ∧
    getLogLevel 2 (twoVars "NODE_ENV" "development" "logLevel" "9007199254740993") t2026
        St.init =
      Result.ok (Level.int 9007199254740992)
        { St.init with logLevel := Level.int 9007199254740992, setCalls := 1,
                       maxDepth := 1 } := by
  decide

/-- C17, amended. With no name that `getEnv` looks up filled, `NODE_ENV` set to
`development`, `detailedLogs` not filled in either key form and `logLevel` set
to the decimal text of an integer `n` of magnitude up to `2 ^ 53`, from a
stored level of `-1`: `getEnv()` returns `DEV`, `getLogLevel()` returns `n`, a
`diag` call adds one record on the debug channel to the console when `n ≥ 3`
and nothing otherwise, and a `debug` call adds one when `n ≥ 5` and nothing
otherwise. At `n = 3` the `diag` call writes and the `debug` call does not. -/
theorem default_scenario (penv : ProcessEnv) (h1 : ∀ k ∈ envProbes, penv.filled k = none)
    (h2 : penv "NODE_ENV" = some "development") (h3 : penv.filled "detailedLogs" = none)
    (h4 : penv.filled "DETAILEDLOGS" = none) (n : Int) (hn : n.natAbs ≤ 2 ^ 53)
    (h5 : penv "logLevel" = some (decimalText n)) (s : St)
    (hs : s.logLevel = Level.int (-1)) (now : Instant) (message : String) (fuel : Nat) :
    getEnv penv = DEV ∧
    ∃ s1 s2 s3, getLogLevel (fuel + 2) penv now s = Result.ok (Level.int n) s1 ∧
      diag (fuel + 3) penv now message s = Result.ok true s2 ∧
      s2.out = (if 3 ≤ n then
          s1.out ++ [{ channel := Channel.debug, tag := DIAG, message := message }]
        else s1.out) ∧
      debug (fuel + 3) penv now message s = Result.ok true s3 ∧
      s3.out = (if 5 ≤ n then
          s1.out ++ [{ channel := Channel.debug, tag := DEBUG, message := message }]
        else s1.out) := by
  have hdev : getEnv penv = DEV := getEnv_of_no_probe penv h1 h2
  have hp : isProduction penv = false := isProduction_of_not_prod penv (Or.inr hdev)
  have hfill : penv.filled "logLevel" = some (decimalText n) := by
    unfold ProcessEnv.filled
    rw [h5]
    simp [decimalText_ne_empty n]
  have hprobes : levelProbes = ["detailedLogs", "DETAILEDLOGS", "logLevel", "LOGLEVEL"] := by
    decide
  have hd : getDefaultLogLevel penv = Level.int n := by
    rw [getDefaultLogLevel_not_production penv hp, hprobes]
    simp only [firstFilled, h3, h4, hfill]
    exact Number_decimalText n hn
  have hg : getLogLevel (fuel + 2) penv now s = Result.ok (Level.int n) (lazyInit penv s) := by
    rw [getLogLevel_eq, lazyInit_of_unset penv s hs, ← hd]
    rfl
  have hD : toUpperCase DIAG = DIAG := by decide
  have hB : toUpperCase DEBUG = DEBUG := by decide
  refine ⟨hdev, lazyInit penv s, gate (Level.int n) DIAG message (lazyInit penv s),
    gate (Level.int n) DEBUG message (lazyInit penv s), hg, ?_, ?_, ?_, ?_⟩
  · unfold diag
    rw [writeLog_of_getLogLevel fuel penv now DIAG message s _ _ hg, hD]
  · rw [gate_diag]
    split_ifs <;> rfl
  · unfold debug
    rw [writeLog_of_getLogLevel fuel penv now DEBUG message s _ _ hg, hB]
  · rw [gate_debug]
    split_ifs <;> rfl

theorem default_scenario_witness :
    (∀ k ∈ envProbes, (twoVars "NODE_ENV" "development" "logLevel" "3").filled k = none) ∧
    twoVars "NODE_ENV" "development" "logLevel" "3" "NODE_ENV" = some "development" ∧
    twoVars "NODE_ENV" "development" "logLevel" "3" "logLevel" = some (decimalText 3) ∧
    (3 : Int).natAbs ≤ 2 ^ 53 ∧
    getEnv (twoVars "NODE_ENV" "development" "logLevel" "3") = DEV ∧
    ∃ s1 s2 s3, getLogLevel (0 + 2) (twoVars "NODE_ENV" "development" "logLevel" "3") t2026
        St.init = Result.ok (Level.int 3) s1 ∧
      diag (0 + 3) (twoVars "NODE_ENV" "development" "logLevel" "3") t2026 "x" St.init =
        Result.ok true s2 ∧
      s2.out = (if (3 : Int) ≤ 3 then
          s1.out ++ [{ channel := Channel.debug, tag := DIAG, message := "x" }]
        else s1.out) ∧
      debug (0 + 3) (twoVars "NODE_ENV" "development" "logLevel" "3") t2026 "x" St.init =
        Result.ok true s3 ∧
      s3.out = (if (5 : Int) ≤ 3 then
          s1.out ++ [{ channel := Channel.debug, tag := DEBUG, message := "x" }]
        else s1.out) :=
  ⟨by decide, by decide, by decide, by decide,
    default_scenario (twoVars "NODE_ENV" "development" "logLevel" "3") (by decide)
      (by decide) (by decide) (by decide) 3 (by decide) (by decide) St.init rfl t2026 "x" 0⟩

/-! ## The stored expiration -/

theorem lazyInit_expiration (penv : ProcessEnv) (x : St)
    (h : x.logLevel.strictEq (-1) = false ∨ x.expiration = none) :
    (lazyInit penv x).expiration = x.expiration := by
  unfold lazyInit
  split
  · rename_i hx
    rcases h with h | h
    · rw [h] at hx; exact absurd hx (by decide)
    · rw [h]; rfl
  · rfl

/-- From a stored level other than `-1`, or without an expiration,
`setLogLevel` leaves in `#expiration` what its head assigned: the ISO string
of the date, or `-1`. -/
theorem setLogLevel_expiration_kept (penv : ProcessEnv) (now : Instant) (logLevel : Level)
    (expiration : Expiration) (s : St) (hs : ¬ finalized penv s)
    (he : expiration ≠ Expiration.invalid)
    (h : s.logLevel.strictEq (-1) = false ∨ expiration = Expiration.absent) (fuel : Nat) :
    ∃ s1, setLogLevel (fuel + 6) penv now logLevel expiration s = Result.ok () s1 ∧
      getExpiration s1 = (storeExpiration expiration s).expiration := by
  have h1 : (storeExpiration expiration s.enter).logLevel.strictEq (-1) = false ∨
      (storeExpiration expiration s.enter).expiration = none := by
    rcases h with h | h
    · left; cases expiration <;> exact h
    · right; rw [h]; rfl
  have h2 : (storeExpiration expiration s.enter).expiration =
      (storeExpiration expiration s).expiration := by
    cases expiration <;> rfl
  have h3 := lazyInit_expiration penv _ h1
  rw [setLogLevel_eq]
  unfold setLogLevelFlat
  rw [if_neg hs, if_neg he]
  dsimp only
  split_ifs with c1 c2 c3 c4
  · exact ⟨_, rfl, h2⟩
  · exact ⟨_, rfl, h3.trans h2⟩
  · exact ⟨_, rfl, h3.trans h2⟩
  · have hl : logLevel.strictEq (-1) = false := by simpa using c1
    have hz := lazyInit_of_set penv
      { storeExpiration expiration s.enter with logLevel := logLevel } hl
    refine ⟨_, rfl, ?_⟩
    show (lazyInit penv _).expiration = _
    rw [hz]
    refine (lazyInit_expiration penv _ (Or.inl ?_)).trans ?_
    · rw [gate_logLevel]; exact hl
    · rw [gate_expiration]; exact h2
  · have hl : logLevel.strictEq (-1) = false := by simpa using c1
    have hz := lazyInit_of_set penv
      { storeExpiration expiration s.enter with logLevel := logLevel } hl
    refine ⟨_, rfl, ?_⟩
    show (gate _ _ _ _).expiration = _
    rw [hz, gate_expiration]
    exact h2

end DebugAndLog
